import Mathlib

/-!
Verification development for the beru state container: the persistence
middleware in src/persistence/core/persist.ts (and the middleware variant of
the same engine), the base store in src/core/store.ts, the multi-store
hydrator in src/persistence/core/setupHydrator.ts, and the default JSON
wire codec.

The engine is embedded as a discrete-event state machine.  Time is a Nat
(milliseconds); a pending setTimeout is an `Option (fireTime, capturedData)`;
the single pending hydration promise is an `Option` promise id plus the job
the async continuation will run; JavaScript exceptions are `Except String`,
with try/catch translated to matching on the `Except`.
-/

namespace Beru

/-- The four error kinds reported through onError. -/
inductive ErrKind
  | storage
  | migration
  | persistence
  | clear
deriving DecidableEq

/-- Result of one storage-adapter call: synchronous success, synchronous
throw, a promise that resolves, or a promise that rejects. -/
inductive CallResult (α : Type)
  | ok (a : α)
  | exn (e : String)
  | asyncOk (a : α)
  | asyncExn (e : String)
deriving DecidableEq

/-- A storage adapter instance: getItem/setItem/removeItem behaviour for the
engine's key (the key is fixed, so it is left implicit). -/
structure StorageInstance where
  getItem : CallResult (Option String)
  setItem : String → CallResult Unit
  removeItem : CallResult Unit

/-- The `storage` configuration field: a plain adapter (covering the
localStorage default), a zero-argument factory returning one, or a factory
that throws when invoked. -/
inductive StorageConfig
  | adapter (i : StorageInstance)
  | factoryOk (i : StorageInstance)
  | factoryThrows (e : String)

/-- createFallbackStorage from src/utils/common.ts: getItem yields null,
setItem/removeItem are no-ops (each logs a warning). -/
def createFallbackStorage : StorageInstance where
  getItem := .ok none
  setItem := fun _ => .ok ()
  removeItem := .ok ()

/-- The persist configuration after defaulting (persist.ts destructuring).
σ is the store state, π the persisted subset produced by the partial
selector, τ the shape deserialize extracts as the stored state.  The
pluggable functions may throw, hence `Except String`.  deserialize yields
the destructured pair (state, version); an absent version key is `none`
(undefined), never coerced to 0. -/
structure Config (σ π τ : Type) where
  debounceTime : Nat := 100
  version : Nat := 0
  serialize : π → Nat → Except String String
  deserialize : String → Except String (τ × Option Nat)
  migrate : τ → Option Nat → Except String (Option τ)
  merge : σ → τ → Except String σ
  partialState : σ → Except String π
  storage : StorageConfig
  skipHydrate : Bool := false

instance {ε α : Type} [DecidableEq ε] [DecidableEq α] :
    DecidableEq (Except ε α) := fun a b =>
  match a, b with
  | .ok x, .ok y =>
    if h : x = y then .isTrue (by rw [h]) else .isFalse (by simp [h])
  | .ok _, .error _ => .isFalse (by simp)
  | .error _, .ok _ => .isFalse (by simp)
  | .error x, .error y =>
    if h : x = y then .isTrue (by rw [h]) else .isFalse (by simp [h])

/-- The engine's mutable closure state plus the wrapped store, plus
instrumentation (calls made, errors reported).

`timer` is the pending debounce timeout as (fire time, captured data).  The
source keeps a stale cleared handle in `persistenceTimer` after dispose;
since a cleared timeout never fires and every later use first clears the
handle again, clearing is modelled as `timer := none`.

`pending` is the memoized pendingHydration promise (by id); `pendingJob` is
what its continuation will do: `.ok data` runs hydrateFromStoredData with
data, `.error e` means the awaited getItem promise rejects with e (the await
re-throws e inside the async arrow). -/
structure EState (σ : Type) where
  storeValue : σ
  initialValue : σ
  subscribed : Bool
  timer : Option (Nat × σ)
  pending : Option Nat
  pendingJob : Option (Except String (Option String))
  promiseCtr : Nat
  storeInitialized : Bool
  hydrateTriggers : Nat
  getItemCalls : Nat
  setItemCalls : List (Nat × String)
  errors : List (ErrKind × String)
deriving DecidableEq

variable {σ π τ : Type}

/-- Record an onError invocation. -/
def pushErr (k : ErrKind) (e : String) (st : EState σ) : EState σ :=
  { st with errors := st.errors ++ [(k, e)] }

/-- getStorageInstance: resolve the adapter lazily; a throwing factory is
caught, reported as a storage error, and replaced by the fallback adapter. -/
def getStorageInstance (cfg : Config σ π τ) (st : EState σ) :
    StorageInstance × EState σ :=
  match cfg.storage with
  | .adapter i => (i, st)
  | .factoryOk i => (i, st)
  | .factoryThrows e => (createFallbackStorage, pushErr .storage e st)

/-- persistStateToStorage: serialize partial(state) with the version tag and
write it; every failure (partial/serialize throw, setItem throw or
rejection — the await is inside the try) is reported as persistence. -/
def persistStateToStorage (cfg : Config σ π τ) (t : Nat) (state : σ)
    (st : EState σ) : EState σ :=
  match (do
      let p ← cfg.partialState state
      cfg.serialize p cfg.version : Except String String) with
  | .error e => pushErr .persistence e st
  | .ok serialized =>
    let (inst, st) := getStorageInstance cfg st
    let st := { st with setItemCalls := st.setItemCalls ++ [(t, serialized)] }
    match inst.setItem serialized with
    | .ok _ => st
    | .exn e => pushErr .persistence e st
    | .asyncOk _ => st
    | .asyncExn e => pushErr .persistence e st

/-- scheduleStatePersistence: clear any pending timeout and schedule a write
of `data` at `t + debounceTime` (trailing-edge debounce). -/
def scheduleStatePersistence (cfg : Config σ π τ) (t : Nat) (data : σ)
    (st : EState σ) : EState σ :=
  { st with timer := some (t + cfg.debounceTime, data) }

/-- store.set (src/core/store.ts): replace the value, then synchronously
notify subscribers with the new value; the engine's subscription callback is
scheduleStatePersistence. -/
def storeSet (cfg : Config σ π τ) (t : Nat) (v : σ) (st : EState σ) :
    EState σ :=
  let st := { st with storeValue := v }
  if st.subscribed then scheduleStatePersistence cfg t v st else st

/-- dispose: remove the change subscription and clear any pending timeout. -/
def dispose (st : EState σ) : EState σ :=
  { st with subscribed := false, timer := none }

/-- initializeSubscription (source name): dispose, then
store.subscribe(scheduleStatePersistence).  src/core/store.ts subscribe adds
the listener and then immediately invokes it with the current state, so
subscribing schedules a debounced write of the current value. -/
def initSubscription (cfg : Config σ π τ) (t : Nat) (st : EState σ) :
    EState σ :=
  let st := dispose st
  let st := { st with subscribed := true }
  scheduleStatePersistence cfg t st.storeValue st

/-- The deserialize → migrate → merge pipeline of hydrateFromStoredData,
applied to the store's current value `cur` (the source passes
`originalGet()`, the unwrapped store.get, which reads the live state).
Returns `none` when migrate vetoed (falsy), `some merged` on success. -/
def hydratePipeline (cfg : Config σ π τ) (cur : σ) (s : String) :
    Except String (Option σ) := do
  let (tv, ver) ← cfg.deserialize s
  let mo ← cfg.migrate tv ver
  match mo with
  | none => pure none
  | some m => do
    let merged ← cfg.merge cur m
    pure (some merged)

/-- JavaScript truthiness of the stored string: null and the empty string
are falsy. -/
def truthyStr : Option String → Option String
  | none => none
  | some s => if s = "" then none else some s

/-- The guarded try-block of hydrateFromStoredData: on a truthy stored
string run the pipeline (any throw is reported as migration and the store
left untouched); a truthy migrated result is written back with
store.set(merge(originalGet(), migrated)). -/
def applyStoredData (cfg : Config σ π τ) (t : Nat)
    (storedData : Option String) (st : EState σ) : EState σ :=
  match truthyStr storedData with
  | none => st
  | some s =>
    match hydratePipeline cfg st.storeValue s with
    | .error e => pushErr .migration e st
    | .ok none => st
    | .ok (some merged) => storeSet cfg t merged st

/-- hydrateFromStoredData: process the stored entry, then (in every branch)
initializeSubscription runs. -/
def hydrateFromStoredData (cfg : Config σ π τ) (t : Nat)
    (storedData : Option String) (st : EState σ) : EState σ :=
  initSubscription cfg t (applyStoredData cfg t storedData st)

/-- What a hydrate() call returns: undefined, or the pending promise. -/
inductive HydrateRet
  | undef
  | promiseHandle (id : Nat)
deriving DecidableEq

/-- hydrate: if pendingHydration is a promise return it unchanged; otherwise
resolve the adapter and call getItem.  A synchronous result is processed
inline (returning undefined); a promise result memoizes a new pending
hydration whose continuation awaits it; a synchronous throw from the adapter
is caught and reported as storage. -/
def hydrate (cfg : Config σ π τ) (t : Nat) (st : EState σ) :
    EState σ × HydrateRet :=
  match st.pending with
  | some pid => (st, .promiseHandle pid)
  | none =>
    let (inst, st) := getStorageInstance cfg st
    let st := { st with getItemCalls := st.getItemCalls + 1 }
    match inst.getItem with
    | .ok data => (hydrateFromStoredData cfg t data st, .undef)
    | .exn e => (pushErr .storage e st, .undef)
    | .asyncOk data =>
      let pid := st.promiseCtr
      ({ st with pending := some pid, promiseCtr := pid + 1,
                 pendingJob := some (.ok data) }, .promiseHandle pid)
    | .asyncExn e =>
      let pid := st.promiseCtr
      ({ st with pending := some pid, promiseCtr := pid + 1,
                 pendingJob := some (.error e) }, .promiseHandle pid)

/-- Settling of the pending hydration promise at time t.  `.ok ()` means the
promise resolves; `.error e` means it rejects: when the awaited getItem
promise rejects, the await re-throws inside the async arrow, where no
try/catch surrounds it.  The memoized pendingHydration handle itself is
never cleared by settling. -/
def settleHydration (cfg : Config σ π τ) (t : Nat) (st : EState σ) :
    EState σ × Except String Unit :=
  match st.pendingJob with
  | none => (st, .ok ())
  | some (.ok data) =>
    (hydrateFromStoredData cfg t data { st with pendingJob := none }, .ok ())
  | some (.error e) => ({ st with pendingJob := none }, .error e)

/-- flush: clear any pending timeout, then immediately persist the store's
current value; the returned promise always resolves (persistStateToStorage
catches everything). -/
def flushOp (cfg : Config σ π τ) (t : Nat) (st : EState σ) :
    EState σ × Except String Unit :=
  let st := { st with timer := none }
  (persistStateToStorage cfg t st.storeValue st, .ok ())

/-- clear: remove the storage entry inside an async try/catch; every failure
is reported as clear and the promise resolves anyway. -/
def clearOp (cfg : Config σ π τ) (st : EState σ) :
    EState σ × Except String Unit :=
  let (inst, st) := getStorageInstance cfg st
  match inst.removeItem with
  | .ok _ => (st, .ok ())
  | .exn e => (pushErr .clear e st, .ok ())
  | .asyncOk _ => (st, .ok ())
  | .asyncExn e => (pushErr .clear e st, .ok ())

/-- forceHydrate: discard the memoized pendingHydration and hydrate again. -/
def forceHydrate (cfg : Config σ π τ) (t : Nat) (st : EState σ) :
    EState σ × HydrateRet :=
  hydrate cfg t { st with pending := none }

/-- waitForPersistence: the memoized pendingHydration, if any. -/
def waitForPersistence (st : EState σ) : Option Nat :=
  st.pending

/-- The wrapped store.get of src/persistence/core/persist.ts: the first read
flips the isStoreInitialized guard flag and (unless skipHydrate) triggers
hydrate; every read returns originalGet().  `hydrateTriggers` counts the
hydrate() calls issued by this getter. -/
def wrappedGet (cfg : Config σ π τ) (t : Nat) (st : EState σ) :
    EState σ × σ :=
  let st :=
    if st.storeInitialized then st
    else
      let st := { st with storeInitialized := true }
      if cfg.skipHydrate then st
      else
        let st := { st with hydrateTriggers := st.hydrateTriggers + 1 }
        (hydrate cfg t st).1
  (st, st.storeValue)

/-- Fire the pending debounce timeout if its scheduled time has been
reached by `now`: the callback persists the captured data and nulls the
timer handle. -/
def fireTimerIfDue (cfg : Config σ π τ) (now : Nat) (st : EState σ) :
    EState σ :=
  match st.timer with
  | none => st
  | some (tf, d) =>
    if tf ≤ now then persistStateToStorage cfg tf d { st with timer := none }
    else st

/-- Run a timeline of store.set events (time, value), in order; before each
event any due timeout fires. -/
def runSets (cfg : Config σ π τ) : List (Nat × σ) → EState σ → EState σ
  | [], st => st
  | (t, v) :: rest, st =>
    runSets cfg rest (storeSet cfg t v (fireTimerIfDue cfg t st))

/-- n successive reads through the wrapped getter, all at time t. -/
def runReads (cfg : Config σ π τ) (t : Nat) : Nat → EState σ → EState σ
  | 0, st => st
  | n + 1, st => runReads cfg t n (wrappedGet cfg t st).1

/-- A burst relative to a previous instant: strictly increasing times, each
event less than D after its predecessor. -/
def burstFrom (D : Nat) : Nat → List (Nat × σ) → Bool
  | _, [] => true
  | prev, (t, _) :: rest =>
    decide (prev < t) && decide (t < prev + D) && burstFrom D t rest

/-- Last element of a nonempty-by-default list. -/
def lastEv (d : Nat × σ) : List (Nat × σ) → Nat × σ
  | [] => d
  | x :: xs => lastEv x xs

/-! ## Debounce coalescing (C1) -/

/-- Along a burst (each set strictly after, and less than debounceTime
after, the previous instant), no timer fires: each set just replaces the
pending timeout with one for its own value. -/
theorem runSets_burst (cfg : Config σ π τ) (es : List (Nat × σ)) :
    ∀ (prev : Nat) (vprev : σ) (st : EState σ),
      st.subscribed = true →
      st.timer = some (prev + cfg.debounceTime, vprev) →
      st.storeValue = vprev →
      burstFrom cfg.debounceTime prev es = true →
      runSets cfg es st =
        { st with
          storeValue := (lastEv (prev, vprev) es).2,
          timer := some ((lastEv (prev, vprev) es).1 + cfg.debounceTime,
                         (lastEv (prev, vprev) es).2) } := by
  induction es with
  | nil =>
    intro prev vprev st hsub htimer hval _
    cases st
    simp_all [runSets, lastEv]
  | cons e rest ih =>
    obtain ⟨t, v⟩ := e
    intro prev vprev st hsub htimer hval hburst
    simp only [burstFrom, Bool.and_eq_true, decide_eq_true_eq] at hburst
    obtain ⟨⟨h1, h2⟩, h3⟩ := hburst
    have hfire : fireTimerIfDue cfg t st = st := by
      simp [fireTimerIfDue, htimer, Nat.not_le.mpr h2]
    have hstep : storeSet cfg t v st =
        { st with storeValue := v,
                  timer := some (t + cfg.debounceTime, v) } := by
      simp [storeSet, scheduleStatePersistence, hsub]
    rw [runSets, hfire, hstep]
    rw [ih t v _ (by simp [hsub]) (by simp) (by simp) h3]
    simp [lastEv]

/-- When partial and serialize succeed, persistStateToStorage performs
exactly one setItem call carrying the serialized envelope, and leaves the
timer alone, whatever the adapter (or factory) does. -/
theorem persistStateToStorage_calls (cfg : Config σ π τ) (t : Nat) (v : σ)
    (st : EState σ) (p : π) (s : String)
    (hpart : cfg.partialState v = .ok p)
    (hser : cfg.serialize p cfg.version = .ok s) :
    (persistStateToStorage cfg t v st).setItemCalls
        = st.setItemCalls ++ [(t, s)] ∧
    (persistStateToStorage cfg t v st).timer = st.timer := by
  have h : (do
      let q ← cfg.partialState v
      cfg.serialize q cfg.version : Except String String) = .ok s := by
    rw [hpart]; exact hser
  unfold persistStateToStorage
  rw [h]
  rcases hsg : cfg.storage with i | i | e <;>
    simp only [getStorageInstance, hsg] <;>
    first
      | (rcases i.setItem s with _ | e2 | _ | e2 <;> simp [pushErr])
      | simp [pushErr, createFallbackStorage]

/-- C1: for every persisted store with debounce time D and every burst of
N ≥ 1 set calls occurring after the change subscription is installed, with
consecutive calls less than D apart, exactly one storage setItem write
results from the burst; it fires D after the last set and its envelope is
the serialization of (partial of the last value, version). -/
theorem persist_debounce_burst (cfg : Config σ π τ) (t1 tL tEnd : Nat)
    (v1 vL : σ) (es : List (Nat × σ)) (st : EState σ) (p : π) (s : String)
    (hsub : st.subscribed = true) (htimer : st.timer = none)
    (hburst : burstFrom cfg.debounceTime t1 es = true)
    (hlast : lastEv (t1, v1) es = (tL, vL))
    (hpart : cfg.partialState vL = .ok p)
    (hser : cfg.serialize p cfg.version = .ok s)
    (hEnd : tL + cfg.debounceTime ≤ tEnd) :
    (fireTimerIfDue cfg tEnd (runSets cfg ((t1, v1) :: es) st)).setItemCalls
        = st.setItemCalls ++ [(tL + cfg.debounceTime, s)] ∧
    (fireTimerIfDue cfg tEnd (runSets cfg ((t1, v1) :: es) st)).timer
        = none := by
  have hfire : fireTimerIfDue cfg t1 st = st := by
    simp [fireTimerIfDue, htimer]
  have hstep : storeSet cfg t1 v1 st =
      { st with storeValue := v1,
                timer := some (t1 + cfg.debounceTime, v1) } := by
    simp [storeSet, scheduleStatePersistence, hsub]
  have hrun : runSets cfg ((t1, v1) :: es) st =
      { st with storeValue := vL,
                timer := some (tL + cfg.debounceTime, vL) } := by
    rw [runSets, hfire, hstep,
        runSets_burst cfg es t1 v1 _ (by simp [hsub]) (by simp) (by simp)
          hburst]
    simp [lastEv, hlast]
  rw [hrun]
  have hdue : fireTimerIfDue cfg tEnd
      { st with storeValue := vL,
                timer := some (tL + cfg.debounceTime, vL) } =
      persistStateToStorage cfg (tL + cfg.debounceTime) vL
        { st with storeValue := vL, timer := none } := by
    simp [fireTimerIfDue, hEnd]
  rw [hdue]
  have hc := persistStateToStorage_calls cfg (tL + cfg.debounceTime) vL
    { st with storeValue := vL, timer := none } p s hpart hser
  exact ⟨hc.1, hc.2⟩

/-- A concrete configuration for witnesses: Nat state, identity partial,
readable serializer, adapter that accepts everything synchronously. -/
def cfgW : Config Nat Nat Nat where
  debounceTime := 100
  version := 1
  serialize := fun p v => .ok (toString p ++ "," ++ toString v)
  deserialize := fun _ => .error "unused"
  migrate := fun tv _ => .ok (some tv)
  merge := fun a b => .ok (a + b)
  partialState := fun s => .ok s
  storage := .adapter ⟨.ok none, fun _ => .ok (), .ok ()⟩

/-- A concrete engine state: subscription installed, nothing pending. -/
def stW : EState Nat where
  storeValue := 0
  initialValue := 0
  subscribed := true
  timer := none
  pending := none
  pendingJob := none
  promiseCtr := 0
  storeInitialized := true
  hydrateTriggers := 0
  getItemCalls := 0
  setItemCalls := []
  errors := []

/-- Witness for C1: a three-set burst at 0 ms, 50 ms, 90 ms with D = 100
yields exactly one write, at 190 ms, of the last value. -/
theorem persist_debounce_burst_witness :
    (fireTimerIfDue cfgW 190
        (runSets cfgW [(0, 1), (50, 2), (90, 3)] stW)).setItemCalls
      = stW.setItemCalls ++ [(190, "3,1")] ∧
    (fireTimerIfDue cfgW 190
        (runSets cfgW [(0, 1), (50, 2), (90, 3)] stW)).timer = none :=
  persist_debounce_burst cfgW 0 90 190 1 3 [(50, 2), (90, 3)] stW 3 "3,1"
    rfl rfl (by decide) rfl rfl rfl (by decide)

/-! ## Hydration pipeline: merge argument (C2), migration safety (C6),
subscription side effect (C10) -/

/-- initializeSubscription leaves the value and error log alone, installs
the subscription, and — because store.subscribe immediately invokes the new
listener with the current state — schedules a debounced write of the
current value. -/
theorem initSubscription_fields (cfg : Config σ π τ) (t : Nat)
    (st : EState σ) :
    (initSubscription cfg t st).storeValue = st.storeValue ∧
    (initSubscription cfg t st).errors = st.errors ∧
    (initSubscription cfg t st).subscribed = true ∧
    (initSubscription cfg t st).timer
        = some (t + cfg.debounceTime, st.storeValue) := by
  simp [initSubscription, dispose, scheduleStatePersistence]

/-- A configuration whose adapter answers getItem with a promise resolving
to the stored envelope "D"; deserialize extracts state 7 at version 0,
migrate passes it through, merge combines as 100 * current + migrated. -/
def cfgM : Config Nat Nat Nat where
  debounceTime := 100
  version := 0
  serialize := fun p v => .ok (toString p ++ "," ++ toString v)
  deserialize := fun _ => .ok (7, some 0)
  migrate := fun tv _ => .ok (some tv)
  merge := fun a b => .ok (100 * a + b)
  partialState := fun s => .ok s
  storage := .adapter ⟨.asyncOk (some "D"), fun _ => .ok (), .ok ()⟩

/-- A freshly constructed engine around a store whose initial value is 10:
no subscription yet, nothing pending. -/
def stH : EState Nat where
  storeValue := 10
  initialValue := 10
  subscribed := false
  timer := none
  pending := none
  pendingJob := none
  promiseCtr := 0
  storeInitialized := true
  hydrateTriggers := 0
  getItemCalls := 0
  setItemCalls := []
  errors := []

/-- C2 counterexample: hydrate() is called (getItem answers asynchronously),
the store is then set to 20 while the read is in flight, and the promise
settles.  merge receives the current value 20 — the store ends at
100 * 20 + 7 = 2007 — not the initial snapshot 10, which would have given
100 * 10 + 7 = 1007 as the claim predicts. -/
theorem hydrate_merge_initial_counterexample :
    ((settleHydration cfgM 2
        (storeSet cfgM 1 20 (hydrate cfgM 0 stH).1)).1).storeValue = 2007 ∧
    ¬ ((settleHydration cfgM 2
        (storeSet cfgM 1 20 (hydrate cfgM 0 stH).1)).1).storeValue
      = 100 * stH.initialValue + 7 := by
  refine ⟨by decide, by decide⟩

/-- C2 amended: when hydration finds a truthy stored entry, deserialize
succeeds and migrate returns a truthy value m, the engine sets the store to
merge(g(), m) where g is the get captured at persist() setup — it returns
the store's current value at the time hydration completes, not the initial
snapshot. -/
theorem hydrate_merge_uses_current (cfg : Config σ π τ) (t : Nat)
    (s : String) (st : EState σ) (tv : τ) (ver : Option Nat) (m : τ)
    (merged : σ) (hs : ¬ s = "")
    (hde : cfg.deserialize s = .ok (tv, ver))
    (hmi : cfg.migrate tv ver = .ok (some m))
    (hme : cfg.merge st.storeValue m = .ok merged) :
    (hydrateFromStoredData cfg t (some s) st).storeValue = merged := by
  have hpipe : hydratePipeline cfg st.storeValue s = .ok (some merged) := by
    unfold hydratePipeline
    rw [hde]
    show (do
        let mo ← cfg.migrate tv ver
        match mo with
        | none => pure none
        | some m => do
          let merged ← cfg.merge st.storeValue m
          pure (some merged) : Except String (Option σ)) = _
    rw [hmi]
    show (do
        let merged ← cfg.merge st.storeValue m
        pure (some merged) : Except String (Option σ)) = _
    rw [hme]
    rfl
  have happ : applyStoredData cfg t (some s) st = storeSet cfg t merged st := by
    simp [applyStoredData, truthyStr, hs, hpipe]
  have hval : (storeSet cfg t merged st).storeValue = merged := by
    unfold storeSet scheduleStatePersistence
    rcases h : st.subscribed <;> simp [h]
  unfold hydrateFromStoredData
  rw [happ, (initSubscription_fields cfg t _).1, hval]

/-- Witness for the amended C2: with the store currently at 20, hydrating
the entry "D" sets the store to merge(20, 7) = 2007. -/
theorem hydrate_merge_uses_current_witness :
    (hydrateFromStoredData cfgM 0 (some "D")
        { stH with storeValue := 20 }).storeValue = 2007 :=
  hydrate_merge_uses_current cfgM 0 "D" { stH with storeValue := 20 }
    7 (some 0) 7 2007 (by decide) rfl rfl rfl

/-- C6: on a truthy stored entry, if migrate returns falsy the store value
and error log are untouched; if deserialize/migrate/merge throws, the store
value is untouched and onError is called exactly once with kind migration;
in both cases the change subscription is still installed afterwards. -/
theorem hydrate_migration_safe (cfg : Config σ π τ) (t : Nat) (s : String)
    (st : EState σ) (hs : ¬ s = "") :
    (hydratePipeline cfg st.storeValue s = .ok none →
      (hydrateFromStoredData cfg t (some s) st).storeValue = st.storeValue ∧
      (hydrateFromStoredData cfg t (some s) st).errors = st.errors ∧
      (hydrateFromStoredData cfg t (some s) st).subscribed = true) ∧
    (∀ e, hydratePipeline cfg st.storeValue s = .error e →
      (hydrateFromStoredData cfg t (some s) st).storeValue = st.storeValue ∧
      (hydrateFromStoredData cfg t (some s) st).errors
          = st.errors ++ [(.migration, e)] ∧
      (hydrateFromStoredData cfg t (some s) st).subscribed = true) := by
  constructor
  · intro hpipe
    have happ : applyStoredData cfg t (some s) st = st := by
      simp [applyStoredData, truthyStr, hs, hpipe]
    unfold hydrateFromStoredData
    rw [happ]
    have h := initSubscription_fields cfg t st
    exact ⟨h.1, h.2.1, h.2.2.1⟩
  · intro e hpipe
    have happ : applyStoredData cfg t (some s) st
        = pushErr .migration e st := by
      simp [applyStoredData, truthyStr, hs, hpipe]
    unfold hydrateFromStoredData
    rw [happ]
    have h := initSubscription_fields cfg t (pushErr .migration e st)
    exact ⟨h.1, by rw [h.2.1]; rfl, h.2.2.1⟩

/-- A configuration whose deserialize always throws (malformed JSON). -/
def cfgBad : Config Nat Nat Nat where
  debounceTime := 100
  version := 0
  serialize := fun p v => .ok (toString p ++ "," ++ toString v)
  deserialize := fun _ => .error "SyntaxError"
  migrate := fun tv _ => .ok (some tv)
  merge := fun a b => .ok (100 * a + b)
  partialState := fun s => .ok s
  storage := .adapter ⟨.ok (some "not json"), fun _ => .ok (), .ok ()⟩

/-- Witness for C6: malformed stored text leaves the value at 10, reports
one migration error, and still installs the subscription. -/
theorem hydrate_migration_safe_witness :
    (hydrateFromStoredData cfgBad 0 (some "not json") stH).storeValue
        = stH.storeValue ∧
    (hydrateFromStoredData cfgBad 0 (some "not json") stH).errors
        = stH.errors ++ [(.migration, "SyntaxError")] ∧
    (hydrateFromStoredData cfgBad 0 (some "not json") stH).subscribed
        = true :=
  (hydrate_migration_safe cfgBad 0 "not json" stH (by decide)).2
    "SyntaxError" rfl

/-- The base store of src/core/store.ts, with listeners tracked by ids. -/
structure BaseStore (σ : Type) where
  state : σ
  initialState : σ
  listeners : List Nat
deriving DecidableEq

/-- store.subscribe: add the listener, then invoke it immediately with the
current state, then hand back the unsubscribe.  The second component lists
the listener invocations performed before subscribe returns. -/
def subscribeStore (s : BaseStore σ) (lid : Nat) :
    BaseStore σ × List (Nat × σ) :=
  ({ s with listeners := s.listeners ++ [lid] }, [(lid, s.state)])

/-- C10: subscribe synchronously invokes the listener with the current
state at subscription time, before returning; consequently every hydration
that reaches subscription setup — success, empty storage, or migration
veto/failure, i.e. every hydrateFromStoredData — immediately schedules a
debounced write of the store's current value, even when no set call has
occurred. -/
theorem subscribe_immediate_write (cfg : Config σ π τ) :
    (∀ (s : BaseStore σ) (lid : Nat),
        (subscribeStore s lid).2 = [(lid, s.state)]) ∧
    (∀ (t : Nat) (sd : Option String) (st : EState σ),
        (hydrateFromStoredData cfg t sd st).timer
          = some (t + cfg.debounceTime,
                  (hydrateFromStoredData cfg t sd st).storeValue)) := by
  constructor
  · intro s lid; rfl
  · intro t sd st
    unfold hydrateFromStoredData
    have h := initSubscription_fields cfg t (applyStoredData cfg t sd st)
    rw [h.2.2.2, h.1]

/-! ## dispose and flush (C7) -/

/-- With the subscription removed and no pending timeout, a timeline of set
events fires no timer and issues no write. -/
theorem runSets_after_dispose (cfg : Config σ π τ) (es : List (Nat × σ)) :
    ∀ st : EState σ, st.subscribed = false → st.timer = none →
      (runSets cfg es st).setItemCalls = st.setItemCalls ∧
      (runSets cfg es st).subscribed = false ∧
      (runSets cfg es st).timer = none := by
  induction es with
  | nil => intro st h1 h2; exact ⟨rfl, h1, h2⟩
  | cons e rest ih =>
    obtain ⟨t, v⟩ := e
    intro st h1 h2
    have hfire : fireTimerIfDue cfg t st = st := by
      simp [fireTimerIfDue, h2]
    have hstep : storeSet cfg t v st = { st with storeValue := v } := by
      simp [storeSet, h1]
    rw [runSets, hfire, hstep]
    exact ih _ (by simp [h1]) (by simp [h2])

/-- C7 counterexample: after dispose(), a flush() call still performs a
storage write — persist.ts flush unconditionally reads store.get() and
calls persistStateToStorage — contradicting "a subsequent flush() call …
produces zero further storage writes". -/
theorem flush_after_dispose_counterexample :
    ((flushOp cfgW 5 (dispose stW)).1).setItemCalls = [(5, "0,1")] ∧
    ¬ ((flushOp cfgW 5 (dispose stW)).1).setItemCalls
        = (dispose stW).setItemCalls := by
  refine ⟨by decide, by decide⟩

/-- C7 amended: dispose() is idempotent and never throws for any number of
calls at any point in the engine's lifecycle; after dispose() no pending
debounce timer remains and a subsequent burst of store mutations produces
zero further storage writes; a flush() call after dispose(), by contrast,
still performs one immediate write of the store's current value. -/
theorem dispose_safe (cfg : Config σ π τ) :
    (∀ (n : Nat) (st : EState σ), dispose^[n + 1] st = dispose st) ∧
    (∀ st : EState σ, (dispose st).timer = none) ∧
    (∀ (es : List (Nat × σ)) (st : EState σ),
        (runSets cfg es (dispose st)).setItemCalls = st.setItemCalls) ∧
    (∀ (t : Nat) (st : EState σ) (p : π) (s : String),
        cfg.partialState st.storeValue = .ok p →
        cfg.serialize p cfg.version = .ok s →
        ((flushOp cfg t (dispose st)).1).setItemCalls
          = st.setItemCalls ++ [(t, s)]) := by
  refine ⟨?_, fun _ => rfl, ?_, ?_⟩
  · intro n
    induction n with
    | zero => intro st; rfl
    | succ k ih =>
      intro st
      rw [Function.iterate_succ_apply, ih]
      rfl
  · intro es st
    exact (runSets_after_dispose cfg es (dispose st) rfl rfl).1
  · intro t st p s hpart hser
    have h := persistStateToStorage_calls cfg t
      (dispose st).storeValue { dispose st with timer := none } p s hpart hser
    unfold flushOp
    rw [h.1]
    rfl

/-- Witness for the amended C7: three dispose() calls equal one; no timer
remains; a two-set burst after dispose writes nothing; flush after dispose
writes the current value 0 once. -/
theorem dispose_safe_witness :
    dispose^[3] stW = dispose stW ∧
    (dispose stW).timer = none ∧
    (runSets cfgW [(0, 1), (50, 2)] (dispose stW)).setItemCalls
        = stW.setItemCalls ∧
    ((flushOp cfgW 5 (dispose stW)).1).setItemCalls
        = stW.setItemCalls ++ [(5, "0,1")] :=
  ⟨(dispose_safe cfgW).1 2 stW, (dispose_safe cfgW).2.1 stW,
   (dispose_safe cfgW).2.2.1 [(0, 1), (50, 2)] stW,
   (dispose_safe cfgW).2.2.2 5 stW 0 "0,1" rfl rfl⟩

/-! ## Hydration deduplication (C5) -/

/-- C5: while a hydration is pending, every further hydrate() call returns
the identical pending promise handle and leaves the whole engine state —
in particular the getItem count — untouched; a getItem can be issued only
from a state with no memoized pending hydration, and forceHydrate is the
reset that produces such a state. -/
theorem hydrate_pending_dedup (cfg : Config σ π τ) :
    (∀ (t : Nat) (st : EState σ) (pid : Nat), st.pending = some pid →
        hydrate cfg t st = (st, .promiseHandle pid)) ∧
    (∀ (t : Nat) (st : EState σ),
        (hydrate cfg t st).1.getItemCalls ≠ st.getItemCalls →
        st.pending = none) ∧
    (∀ (t : Nat) (st : EState σ),
        forceHydrate cfg t st = hydrate cfg t { st with pending := none }) := by
  refine ⟨?_, ?_, fun _ _ => rfl⟩
  · intro t st pid h
    unfold hydrate
    rw [h]
  · intro t st hne
    rcases h : st.pending with _ | pid
    · rfl
    · exfalso
      apply hne
      unfold hydrate
      rw [h]

/-- A pending hydration handle with id 3. -/
def stP : EState Nat := { stW with pending := some 3 }

/-- Witness for C5: with hydration 3 pending, hydrate() returns that very
handle and changes nothing. -/
theorem hydrate_pending_dedup_witness :
    hydrate cfgW 0 stP = (stP, .promiseHandle 3) :=
  (hydrate_pending_dedup cfgW).1 0 stP 3 rfl

/-! ## Error propagation of the public operations (C4) -/

/-- An adapter whose getItem returns a rejecting promise. -/
def cfgR : Config Nat Nat Nat :=
  { cfgW with storage := .adapter ⟨.asyncExn "boom", fun _ => .ok (), .ok ()⟩ }

/-- C4 counterexample: when the adapter's getItem returns a rejecting
promise, the promise returned by hydrate() rejects — the await sits outside
every try/catch — and onError is never called. -/
theorem hydrate_reject_counterexample :
    (settleHydration cfgR 1 (hydrate cfgR 0 stH).1).2 = .error "boom" ∧
    (settleHydration cfgR 1 (hydrate cfgR 0 stH).1).1.errors = [] := by
  refine ⟨by decide, by decide⟩

/-- A throwing serialize (or partial) inside persistStateToStorage is
caught and reported as a persistence-kind onError. -/
theorem persistStateToStorage_serialize_err (cfg : Config σ π τ) (t : Nat)
    (v : σ) (st : EState σ) (e : String)
    (he : (do
        let q ← cfg.partialState v
        cfg.serialize q cfg.version : Except String String) = .error e) :
    (persistStateToStorage cfg t v st).errors
      = st.errors ++ [(.persistence, e)] := by
  unfold persistStateToStorage
  rw [he]
  rfl

/-- A setItem that throws, or whose promise rejects (the await is inside
the try), is caught and reported as a persistence-kind onError. -/
theorem persistStateToStorage_setItem_err (cfg : Config σ π τ) (t : Nat)
    (v : σ) (st : EState σ) (i : StorageInstance) (p : π) (s e : String)
    (hs : cfg.storage = .adapter i ∨ cfg.storage = .factoryOk i)
    (hp : cfg.partialState v = .ok p)
    (hse : cfg.serialize p cfg.version = .ok s)
    (hw : i.setItem s = .exn e ∨ i.setItem s = .asyncExn e) :
    (persistStateToStorage cfg t v st).errors
      = st.errors ++ [(.persistence, e)] := by
  have h : (do
      let q ← cfg.partialState v
      cfg.serialize q cfg.version : Except String String) = .ok s := by
    rw [hp]; exact hse
  unfold persistStateToStorage getStorageInstance
  rw [h]
  rcases hs with hs | hs <;> simp only [hs] <;>
    rcases hw with hw | hw <;> simp only [hw] <;> rfl

/-- C4 amended: flush() and clear() never throw and their promises always
resolve, each failure (serialize/partial throw, setItem throw or
rejection, removeItem throw or rejection) being reported through onError
with its kind (persistence for flush, clear for clear); hydrate() never
throws synchronously — a synchronously-throwing getItem is reported as a
storage error and hydrate returns undefined — but when the adapter's
getItem returns a rejecting promise, hydrate() reports nothing and the
promise it returns rejects with that error, again with no onError
report. -/
theorem public_ops_error_isolation (cfg : Config σ π τ) :
    (∀ (t : Nat) (st : EState σ), (flushOp cfg t st).2 = .ok ()) ∧
    (∀ st : EState σ, (clearOp cfg st).2 = .ok ()) ∧
    (∀ (t : Nat) (st : EState σ) (e : String),
        (do
          let q ← cfg.partialState st.storeValue
          cfg.serialize q cfg.version : Except String String) = .error e →
        (flushOp cfg t st).1.errors = st.errors ++ [(.persistence, e)]) ∧
    (∀ (t : Nat) (st : EState σ) (i : StorageInstance) (p : π) (s e : String),
        cfg.storage = .adapter i ∨ cfg.storage = .factoryOk i →
        cfg.partialState st.storeValue = .ok p →
        cfg.serialize p cfg.version = .ok s →
        i.setItem s = .exn e ∨ i.setItem s = .asyncExn e →
        (flushOp cfg t st).1.errors = st.errors ++ [(.persistence, e)]) ∧
    (∀ (st : EState σ) (i : StorageInstance) (e : String),
        cfg.storage = .adapter i ∨ cfg.storage = .factoryOk i →
        i.removeItem = .exn e ∨ i.removeItem = .asyncExn e →
        (clearOp cfg st).1.errors = st.errors ++ [(.clear, e)]) ∧
    (∀ (t : Nat) (st : EState σ) (e : String),
        (settleHydration cfg t st).2 = .error e ↔
          st.pendingJob = some (.error e)) ∧
    (∀ (t : Nat) (st : EState σ) (i : StorageInstance) (e : String),
        st.pending = none →
        cfg.storage = .adapter i ∨ cfg.storage = .factoryOk i →
        i.getItem = .exn e →
        (hydrate cfg t st).2 = .undef ∧
        (hydrate cfg t st).1.errors = st.errors ++ [(.storage, e)]) ∧
    (∀ (t u : Nat) (st : EState σ) (i : StorageInstance) (e : String),
        st.pending = none →
        cfg.storage = .adapter i ∨ cfg.storage = .factoryOk i →
        i.getItem = .asyncExn e →
        (hydrate cfg t st).1.errors = st.errors ∧
        (settleHydration cfg u (hydrate cfg t st).1).2 = .error e ∧
        (settleHydration cfg u (hydrate cfg t st).1).1.errors
          = st.errors) := by
  refine ⟨fun _ _ => rfl, ?_, ?_, ?_, ?_, ?_, ?_, ?_⟩
  · intro st
    unfold clearOp getStorageInstance
    rcases hs : cfg.storage with i | i | e
    · rcases hr : i.removeItem with _ | e2 | _ | e2 <;> simp [hs, hr]
    · rcases hr : i.removeItem with _ | e2 | _ | e2 <;> simp [hs, hr]
    · simp [hs, createFallbackStorage]
  · intro t st e he
    exact persistStateToStorage_serialize_err cfg t st.storeValue
      { st with timer := none } e he
  · intro t st i p s e hs hp hse hw
    exact persistStateToStorage_setItem_err cfg t st.storeValue
      { st with timer := none } i p s e hs hp hse hw
  · intro st i e hs hr
    unfold clearOp getStorageInstance
    rcases hs with hs | hs <;> simp only [hs] <;>
      rcases hr with hr | hr <;> simp only [hr] <;> rfl
  · intro t st e
    unfold settleHydration
    rcases h : st.pendingJob with _ | j
    · simp
    · rcases j with e2 | d <;> simp
  · intro t st i e hp hs hg
    unfold hydrate getStorageInstance
    rcases hs with hs | hs <;> simp only [hp, hs, hg] <;>
      exact ⟨trivial, rfl⟩
  · intro t u st i e hp hs hg
    unfold hydrate getStorageInstance settleHydration
    rcases hs with hs | hs <;> simp only [hp, hs, hg] <;>
      exact ⟨trivial, trivial, trivial⟩

/-- An adapter whose getItem throws synchronously. -/
def cfgE : Config Nat Nat Nat :=
  { cfgW with storage := .adapter ⟨.exn "tantrum", fun _ => .ok (), .ok ()⟩ }

/-- A configuration whose serialize always throws. -/
def cfgSerErr : Config Nat Nat Nat :=
  { cfgW with serialize := fun _ _ => .error "serfail" }

/-- An adapter whose setItem throws synchronously. -/
def cfgWriteErr : Config Nat Nat Nat :=
  { cfgW with storage := .adapter ⟨.ok none, fun _ => .exn "diskfull", .ok ()⟩ }

/-- An adapter whose removeItem returns a rejecting promise. -/
def cfgClearErr : Config Nat Nat Nat :=
  { cfgW with storage := .adapter ⟨.ok none, fun _ => .ok (), .asyncExn "denied"⟩ }

/-- Witness for the amended C4: flush and clear resolve; a throwing
serialize and a throwing setItem are each reported as persistence; a
rejecting removeItem is reported as clear; settling is a rejection exactly
when the recorded job is one; a synchronous getItem throw is reported as
storage with hydrate returning undefined; a rejecting getItem promise is
reported nowhere and makes the settled promise reject. -/
theorem public_ops_error_isolation_witness :
    (flushOp cfgW 0 stW).2 = .ok () ∧
    (clearOp cfgW stW).2 = .ok () ∧
    (flushOp cfgSerErr 0 stW).1.errors
        = stW.errors ++ [(.persistence, "serfail")] ∧
    (flushOp cfgWriteErr 0 stW).1.errors
        = stW.errors ++ [(.persistence, "diskfull")] ∧
    (clearOp cfgClearErr stW).1.errors = stW.errors ++ [(.clear, "denied")] ∧
    ((settleHydration cfgW 0 stW).2 = .error "x" ↔
        stW.pendingJob = some (.error "x")) ∧
    ((hydrate cfgE 0 stH).2 = .undef ∧
      (hydrate cfgE 0 stH).1.errors = stH.errors ++ [(.storage, "tantrum")]) ∧
    ((hydrate cfgR 0 stH).1.errors = stH.errors ∧
      (settleHydration cfgR 1 (hydrate cfgR 0 stH).1).2 = .error "boom" ∧
      (settleHydration cfgR 1 (hydrate cfgR 0 stH).1).1.errors
        = stH.errors) :=
  ⟨(public_ops_error_isolation cfgW).1 0 stW,
   (public_ops_error_isolation cfgW).2.1 stW,
   (public_ops_error_isolation cfgSerErr).2.2.1 0 stW "serfail" rfl,
   (public_ops_error_isolation cfgWriteErr).2.2.2.1 0 stW
     ⟨.ok none, fun _ => .exn "diskfull", .ok ()⟩ 0 "0,1" "diskfull"
     (Or.inl rfl) rfl rfl (Or.inl rfl),
   (public_ops_error_isolation cfgClearErr).2.2.2.2.1 stW
     ⟨.ok none, fun _ => .ok (), .asyncExn "denied"⟩ "denied"
     (Or.inl rfl) (Or.inr rfl),
   (public_ops_error_isolation cfgW).2.2.2.2.2.1 0 stW "x",
   (public_ops_error_isolation cfgE).2.2.2.2.2.2.1 0 stH
     ⟨.exn "tantrum", fun _ => .ok (), .ok ()⟩ "tantrum" rfl (Or.inl rfl) rfl,
   (public_ops_error_isolation cfgR).2.2.2.2.2.2.2 0 1 stH
     ⟨.asyncExn "boom", fun _ => .ok (), .ok ()⟩ "boom" rfl
     (Or.inl rfl) rfl⟩

/-! ## First-access lazy hydration (C3) — the wrapped store.get of
src/persistence/core/persist.ts, whose body performs no hydrate at setup
time; only the guarded getter does. -/

/-- The try-block of hydrateFromStoredData never touches the guard flag or
the call counters. -/
theorem applyStoredData_counters (cfg : Config σ π τ) (t : Nat)
    (sd : Option String) (st : EState σ) :
    (applyStoredData cfg t sd st).getItemCalls = st.getItemCalls ∧
    (applyStoredData cfg t sd st).hydrateTriggers = st.hydrateTriggers ∧
    (applyStoredData cfg t sd st).storeInitialized = st.storeInitialized := by
  rcases hts : truthyStr sd with _ | s
  · simp [applyStoredData, hts]
  · rcases hp : hydratePipeline cfg st.storeValue s with e | mo
    · simp [applyStoredData, hts, hp, pushErr]
    · rcases mo with _ | m
      · simp [applyStoredData, hts, hp]
      · simp only [applyStoredData, hts, hp]
        unfold storeSet scheduleStatePersistence
        rcases h : st.subscribed <;> simp [h]

/-- hydrateFromStoredData never touches the guard flag or the call
counters either. -/
theorem hydrateFromStoredData_counters (cfg : Config σ π τ) (t : Nat)
    (sd : Option String) (st : EState σ) :
    (hydrateFromStoredData cfg t sd st).getItemCalls = st.getItemCalls ∧
    (hydrateFromStoredData cfg t sd st).hydrateTriggers
        = st.hydrateTriggers ∧
    (hydrateFromStoredData cfg t sd st).storeInitialized
        = st.storeInitialized := by
  have h := applyStoredData_counters cfg t sd st
  unfold hydrateFromStoredData initSubscription dispose
    scheduleStatePersistence
  simpa using h

/-- A hydrate() from a state with nothing pending issues exactly one
getItem and leaves the guard flag and trigger counter alone, whatever the
adapter answers. -/
theorem hydrate_invariants (cfg : Config σ π τ) (t : Nat) (st : EState σ)
    (hpend : st.pending = none) :
    (hydrate cfg t st).1.getItemCalls = st.getItemCalls + 1 ∧
    (hydrate cfg t st).1.hydrateTriggers = st.hydrateTriggers ∧
    (hydrate cfg t st).1.storeInitialized = st.storeInitialized := by
  unfold hydrate getStorageInstance
  simp only [hpend]
  rcases hs : cfg.storage with i | i | e <;> simp only [hs]
  case adapter | factoryOk =>
    rcases hg : i.getItem with data | e2 | data | e2 <;>
      simp [hg, pushErr, hydrateFromStoredData_counters]
  case factoryThrows =>
    simp [createFallbackStorage, pushErr, hydrateFromStoredData_counters]

/-- A read through the wrapped getter after the guard flag is set changes
nothing and returns the current value. -/
theorem wrappedGet_initialized (cfg : Config σ π τ) (t : Nat)
    (st : EState σ) (h : st.storeInitialized = true) :
    wrappedGet cfg t st = (st, st.storeValue) := by
  unfold wrappedGet
  simp [h]

/-- Reads after initialization are pure no-ops on the engine state. -/
theorem runReads_initialized (cfg : Config σ π τ) (t : Nat) :
    ∀ (n : Nat) (st : EState σ), st.storeInitialized = true →
      runReads cfg t n st = st := by
  intro n
  induction n with
  | zero => intro st _; rfl
  | succ k ih =>
    intro st h
    rw [runReads, wrappedGet_initialized cfg t st h]
    exact ih st h

/-- C3: with skipHydrate false, the first read of the store's value through
the persistence engine triggers hydration — exactly once however many
reads follow, gated by the isStoreInitialized flag — and issues exactly one
storage getItem; before any read, no getItem for the engine's key has
occurred. -/
theorem lazy_hydration_once (cfg : Config σ π τ) (t : Nat) (st : EState σ)
    (hskip : cfg.skipHydrate = false)
    (hinit : st.storeInitialized = false) (hpend : st.pending = none)
    (htrig : st.hydrateTriggers = 0) (hget : st.getItemCalls = 0) :
    (runReads cfg t 0 st).getItemCalls = 0 ∧
    ∀ n : Nat, (runReads cfg t (n + 1) st).hydrateTriggers = 1 ∧
               (runReads cfg t (n + 1) st).getItemCalls = 1 := by
  constructor
  · exact hget
  · intro n
    have hstep : (wrappedGet cfg t st).1
        = (hydrate cfg t
            { st with storeInitialized := true,
                      hydrateTriggers := st.hydrateTriggers + 1 }).1 := by
      unfold wrappedGet
      simp [hinit, hskip]
    have hinv := hydrate_invariants cfg t
      { st with storeInitialized := true,
                hydrateTriggers := st.hydrateTriggers + 1 }
      (by simpa using hpend)
    rw [runReads, runReads_initialized cfg t n _ (by rw [hstep]; exact hinv.2.2)]
    rw [hstep]
    refine ⟨?_, ?_⟩
    · rw [hinv.2.1]; simpa using htrig
    · rw [hinv.1]; simpa using hget

/-- A fresh engine around cfgW's store: guard flag down, nothing pending. -/
def stF : EState Nat := { stH with storeInitialized := false }

/-- Witness for C3: zero reads mean zero getItem calls; three reads still
mean exactly one hydration trigger and one getItem call. -/
theorem lazy_hydration_once_witness :
    (runReads cfgW 0 0 stF).getItemCalls = 0 ∧
    ((runReads cfgW 0 3 stF).hydrateTriggers = 1 ∧
      (runReads cfgW 0 3 stF).getItemCalls = 1) :=
  ⟨(lazy_hydration_once cfgW 0 stF rfl rfl rfl rfl rfl).1,
   (lazy_hydration_once cfgW 0 stF rfl rfl rfl rfl rfl).2 2⟩

/-! ## Multi-store hydrator (C8) — src/persistence/core/setupHydrator.ts -/

/-- One persistence engine as the hydrator sees it: an identity and what
its hydrate() call returns — nothing pending (a synchronous run) or a
promise, tagged with the instant it resolves. -/
structure HEngine where
  hid : Nat
  hydrateResult : Option Nat
deriving DecidableEq

/-- The hydrator's loop: call hydrate() on each instance in order (first
component: the invocation trace) and collect every result that is a
promise into asyncHydrationTasks (second component, in order). -/
def collectHydration : List HEngine → List Nat × List Nat
  | [] => ([], [])
  | e :: es =>
    let (calls, tasks) := collectHydration es
    (e.hid :: calls,
     match e.hydrateResult with
     | some rt => rt :: tasks
     | none => tasks)

/-- Promise.all over resolve instants: the join resolves when the last
task has resolved. -/
def promiseAllTime (ts : List Nat) : Nat := ts.foldr max 0

/-- What the callable returned by setupHydrator returns. -/
inductive HydratorRet
  | undef
  | resolvesAt (t : Nat)
deriving DecidableEq

/-- setupHydrator's returned callable: hydrate every instance, and if no
async task was collected return undefined, else the Promise.all join. -/
def runHydrator (es : List HEngine) : List Nat × HydratorRet :=
  let (calls, tasks) := collectHydration es
  if tasks.isEmpty then (calls, .undef)
  else (calls, .resolvesAt (promiseAllTime tasks))

/-- The collected tasks are exactly the promise-returning hydrations, in
list order. -/
theorem collectHydration_spec (es : List HEngine) :
    (collectHydration es).1 = es.map HEngine.hid ∧
    (collectHydration es).2 = es.filterMap HEngine.hydrateResult := by
  induction es with
  | nil => exact ⟨rfl, rfl⟩
  | cons e rest ih =>
    unfold collectHydration
    rcases h : e.hydrateResult with _ | rt <;>
      simp [List.filterMap_cons, h, ih.1, ih.2]

/-- The fold implementing the Promise.all join resolves exactly when every
collected task has resolved. -/
theorem promiseAllTime_le (ts : List Nat) (t : Nat) :
    promiseAllTime ts ≤ t ↔ ∀ rt ∈ ts, rt ≤ t := by
  induction ts with
  | nil => simp [promiseAllTime]
  | cons a l ih =>
    unfold promiseAllTime at *
    simp [List.foldr_cons, Nat.max_le, ih]

/-- C8: the callable returned by setupHydrator calls hydrate() exactly once
on each engine in list order; if no hydrate() returned a promise it returns
undefined synchronously, and otherwise it returns one promise that resolves
exactly when all of the pending hydration promises have resolved. -/
theorem setupHydrator_spec (es : List HEngine) :
    (runHydrator es).1 = es.map HEngine.hid ∧
    ((runHydrator es).2 = .undef ↔
        ∀ e ∈ es, e.hydrateResult = none) ∧
    (∀ T, (runHydrator es).2 = .resolvesAt T →
        ∀ t, T ≤ t ↔ ∀ rt ∈ (collectHydration es).2, rt ≤ t) := by
  rcases hce : collectHydration es with ⟨calls, tasks⟩
  have hc1 : calls = es.map HEngine.hid := by
    have h := (collectHydration_spec es).1
    rw [hce] at h
    exact h
  have hc2 : tasks = es.filterMap HEngine.hydrateResult := by
    have h := (collectHydration_spec es).2
    rw [hce] at h
    exact h
  unfold runHydrator
  rw [hce]
  refine ⟨?_, ?_, ?_⟩
  · rcases h : tasks.isEmpty <;> simp [h, hc1]
  · rcases h : tasks.isEmpty <;> simp [h]
    · have hne : tasks ≠ [] := by
        intro habs
        rw [habs] at h
        simp at h
      rw [hc2] at hne
      by_contra hno
      push_neg at hno
      exact hne (List.filterMap_eq_nil_iff.mpr hno)
    · intro e he
      have ht : tasks = [] := List.isEmpty_iff.mp h
      rw [hc2] at ht
      exact List.filterMap_eq_nil_iff.mp ht e he
  · intro T hT t
    rcases h : tasks.isEmpty <;> simp [h] at hT
    subst hT
    exact promiseAllTime_le tasks t

/-- Witness for C8: two synchronous engines and two async engines
resolving at 5 and 9; the join resolves exactly at 9, and each engine is
hydrated once, in order. -/
theorem setupHydrator_spec_witness :
    (runHydrator [⟨1, none⟩, ⟨2, some 5⟩, ⟨3, none⟩, ⟨4, some 9⟩]).1
        = [1, 2, 3, 4] ∧
    ((runHydrator [⟨1, none⟩, ⟨2, some 5⟩, ⟨3, none⟩, ⟨4, some 9⟩]).2
        = .undef ↔
      ∀ e ∈ [HEngine.mk 1 none, ⟨2, some 5⟩, ⟨3, none⟩, ⟨4, some 9⟩],
        e.hydrateResult = none) ∧
    (9 ≤ 9 ↔ ∀ rt ∈ (collectHydration
        [⟨1, none⟩, ⟨2, some 5⟩, ⟨3, none⟩, ⟨4, some 9⟩]).2, rt ≤ 9) :=
  ⟨(setupHydrator_spec _).1, (setupHydrator_spec _).2.1,
   (setupHydrator_spec
      [⟨1, none⟩, ⟨2, some 5⟩, ⟨3, none⟩, ⟨4, some 9⟩]).2.2 9 rfl 9⟩

/-! ## Default wire codec (C9): serialize = JSON.stringify, deserialize =
JSON.parse, applied to the envelope obj with fields state and version.
JavaScript states are modelled as JSON values with integer numbers; the
printer emits exactly JSON.stringify's compact output (shortest escapes for
control characters, \\u00xx for the rest below 0x20), and the parser is a
strict recursive-descent JSON reader for that grammar. -/

/-- The double-quote character. -/
def quoteC : Char := Char.ofNat 34

/-- The backslash character. -/
def bsC : Char := Char.ofNat 92

/-- The opening curly bracket. -/
def lbraceC : Char := Char.ofNat 123

/-- The closing curly bracket. -/
def rbraceC : Char := Char.ofNat 125

/-- JSON values as JavaScript states hold them: null, booleans, (integer)
numbers, strings, arrays, and objects with ordered fields. -/
inductive JsonVal
  | null
  | bool (b : Bool)
  | num (n : Int)
  | str (s : String)
  | arr (xs : List JsonVal)
  | obj (fs : List (String × JsonVal))

/-- Lower-case hexadecimal digit, as JSON.stringify emits in \\u escapes. -/
def hexDigitChar (n : Nat) : Char :=
  if n < 10 then Char.ofNat (48 + n) else Char.ofNat (87 + n)

/-- Value of one hexadecimal digit (either case), as JSON.parse accepts. -/
def hexVal (c : Char) : Option Nat :=
  if 48 ≤ c.toNat ∧ c.toNat ≤ 57 then some (c.toNat - 48)
  else if 97 ≤ c.toNat ∧ c.toNat ≤ 102 then some (c.toNat - 87)
  else if 65 ≤ c.toNat ∧ c.toNat ≤ 70 then some (c.toNat - 55)
  else none

/-- JSON.stringify's escaping of one string character: quote and backslash
get a backslash, the named control characters get their short escapes, any
other control character becomes \\u00xx, and everything else is literal. -/
def escapeChar (c : Char) : List Char :=
  if c = quoteC then bsC :: quoteC :: []
  else if c = bsC then bsC :: bsC :: []
  else if c.toNat = 8 then bsC :: 'b' :: []
  else if c.toNat = 9 then bsC :: 't' :: []
  else if c.toNat = 10 then bsC :: 'n' :: []
  else if c.toNat = 12 then bsC :: 'f' :: []
  else if c.toNat = 13 then bsC :: 'r' :: []
  else if c.toNat < 32 then
    bsC :: 'u' :: '0' :: '0'
      :: hexDigitChar (c.toNat / 16) :: hexDigitChar (c.toNat % 16) :: []
  else [c]

/-- Escape a whole character list. -/
def escList : List Char → List Char
  | [] => []
  | c :: cs => escapeChar c ++ escList cs

/-- Render a JSON string literal: quote, escaped content, quote. -/
def renderStr (s : String) : List Char :=
  quoteC :: (escList s.data ++ [quoteC])

/-- The decimal digit character for n < 10. -/
def digitChar (n : Nat) : Char := Char.ofNat (48 + n)

/-- Decimal digits of a natural number, most significant first. -/
def natDigits (n : Nat) : List Char :=
  if h : n < 10 then [digitChar n]
  else natDigits (n / 10) ++ [digitChar (n % 10)]
decreasing_by exact Nat.div_lt_self (by omega) (by omega)

/-- 10 to the number of decimal digits of n (the accumulator shift a
greedy digit parser applies after consuming n's digits). -/
def digitsBase (n : Nat) : Nat :=
  if n < 10 then 10 else digitsBase (n / 10) * 10
decreasing_by exact Nat.div_lt_self (by omega) (by omega)

/-- Render an integer the way JSON.stringify prints an integral number. -/
def renderInt : Int → List Char
  | .ofNat n => natDigits n
  | .negSucc n => '-' :: natDigits (n + 1)

mutual

/-- JSON.stringify (compact form, no whitespace). -/
def render : JsonVal → List Char
  | .null => 'n' :: 'u' :: 'l' :: 'l' :: []
  | .bool true => 't' :: 'r' :: 'u' :: 'e' :: []
  | .bool false => 'f' :: 'a' :: 'l' :: 's' :: 'e' :: []
  | .num i => renderInt i
  | .str s => renderStr s
  | .arr [] => '[' :: ']' :: []
  | .arr (v :: vs) => '[' :: (render v ++ (renderTail vs ++ [']']))
  | .obj [] => lbraceC :: rbraceC :: []
  | .obj ((k, v) :: fs) =>
    lbraceC :: (renderStr k ++ ':' :: (render v ++ (renderFTail fs ++ [rbraceC])))

/-- Later array elements, each preceded by a comma. -/
def renderTail : List JsonVal → List Char
  | [] => []
  | v :: vs => ',' :: (render v ++ renderTail vs)

/-- Later object fields, each preceded by a comma. -/
def renderFTail : List (String × JsonVal) → List Char
  | [] => []
  | (k, v) :: fs => ',' :: (renderStr k ++ ':' :: (render v ++ renderFTail fs))

end

mutual

/-- Structural size of a JSON value (fuel bound for the parser). -/
def sizeJ : JsonVal → Nat
  | .null => 1
  | .bool _ => 1
  | .num _ => 1
  | .str _ => 1
  | .arr xs => 2 + sizeL xs
  | .obj fs => 2 + sizeF fs

/-- Structural size of an array segment. -/
def sizeL : List JsonVal → Nat
  | [] => 0
  | v :: vs => 1 + sizeJ v + sizeL vs

/-- Structural size of an object segment. -/
def sizeF : List (String × JsonVal) → Nat
  | [] => 0
  | (_, v) :: fs => 1 + sizeJ v + sizeF fs

end

/-- JSON.parse's decoding of a single-character backslash escape. -/
def escDecode (e : Char) : Option Char :=
  if e = quoteC then some quoteC
  else if e = bsC then some bsC
  else if e = '/' then some '/'
  else if e = 'b' then some (Char.ofNat 8)
  else if e = 't' then some (Char.ofNat 9)
  else if e = 'n' then some (Char.ofNat 10)
  else if e = 'f' then some (Char.ofNat 12)
  else if e = 'r' then some (Char.ofNat 13)
  else none

/-- JSON.parse's reading of a string body after the opening quote: plain
characters until the closing quote, backslash escapes (including \\uXXXX)
decoded. -/
def parseStrChars : List Char → Option (List Char × List Char)
  | [] => none
  | c :: cs =>
    if c = quoteC then some ([], cs)
    else if c = bsC then
      match cs with
      | [] => none
      | e :: cs2 =>
        if e = 'u' then
          match cs2 with
          | h1 :: h2 :: h3 :: h4 :: cs3 =>
            match hexVal h1, hexVal h2, hexVal h3, hexVal h4 with
            | some a, some b, some c2, some d =>
              match parseStrChars cs3 with
              | some (tail, rest) =>
                some (Char.ofNat (((a * 16 + b) * 16 + c2) * 16 + d) :: tail,
                      rest)
              | none => none
            | _, _, _, _ => none
          | _ => none
        else
          match escDecode e with
          | some u =>
            match parseStrChars cs2 with
            | some (tail, rest) => some (u :: tail, rest)
            | none => none
          | none => none
    else
      match parseStrChars cs with
      | some (tail, rest) => some (c :: tail, rest)
      | none => none

/-- Greedy decimal digit consumption with an accumulator. -/
def parseDigits : List Char → Nat → Nat × List Char
  | [], acc => (acc, [])
  | c :: cs, acc =>
    if c.isDigit then parseDigits cs (acc * 10 + (c.toNat - 48))
    else (acc, c :: cs)

/-- The null literal after its leading n. -/
def parseNull (cs : List Char) : Option (JsonVal × List Char) :=
  match cs with
  | 'u' :: 'l' :: 'l' :: rest => some (.null, rest)
  | _ => none

/-- The true literal after its leading t. -/
def parseTrue (cs : List Char) : Option (JsonVal × List Char) :=
  match cs with
  | 'r' :: 'u' :: 'e' :: rest => some (.bool true, rest)
  | _ => none

/-- The false literal after its leading f. -/
def parseFalse (cs : List Char) : Option (JsonVal × List Char) :=
  match cs with
  | 'a' :: 'l' :: 's' :: 'e' :: rest => some (.bool false, rest)
  | _ => none

mutual

/-- JSON.parse's value reader (integer numbers; fuel bounds nesting). -/
def parseVal : Nat → List Char → Option (JsonVal × List Char)
  | 0, _ => none
  | _ + 1, [] => none
  | fuel + 1, c :: cs =>
    if c = 'n' then parseNull cs
    else if c = 't' then parseTrue cs
    else if c = 'f' then parseFalse cs
    else if c = quoteC then
      match parseStrChars cs with
      | some (chars, rest) => some (.str (String.mk chars), rest)
      | none => none
    else if c = '-' then
      match cs with
      | d :: _ =>
        if d.isDigit then
          match parseDigits cs 0 with
          | (n, rest) => some (.num (-(n : Int)), rest)
        else none
      | [] => none
    else if c.isDigit then
      match parseDigits (c :: cs) 0 with
      | (n, rest) => some (.num (n : Int), rest)
    else if c = '[' then
      match cs with
      | d :: rest2 =>
        if d = ']' then some (.arr [], rest2)
        else
          match parseList fuel cs with
          | some (vs, rest) => some (.arr vs, rest)
          | none => none
      | [] => none
    else if c = lbraceC then
      match cs with
      | d :: rest2 =>
        if d = rbraceC then some (.obj [], rest2)
        else
          match parseFields fuel cs with
          | some (fs, rest) => some (.obj fs, rest)
          | none => none
      | [] => none
    else none

/-- Nonempty array body: value, then comma-continuation or closing
bracket. -/
def parseList : Nat → List Char → Option (List JsonVal × List Char)
  | 0, _ => none
  | fuel + 1, cs =>
    match parseVal fuel cs with
    | some (v, rest) =>
      match rest with
      | c :: rest2 =>
        if c = ',' then
          match parseList fuel rest2 with
          | some (vs, rest3) => some (v :: vs, rest3)
          | none => none
        else if c = ']' then some ([v], rest2)
        else none
      | [] => none
    | none => none

/-- Nonempty object body: quoted key, colon, value, then
comma-continuation or closing bracket. -/
def parseFields :
    Nat → List Char → Option (List (String × JsonVal) × List Char)
  | 0, _ => none
  | fuel + 1, cs =>
    match cs with
    | q :: cs2 =>
      if q = quoteC then
        match parseStrChars cs2 with
        | some (kchars, rest) =>
          match rest with
          | c0 :: rest2 =>
            if c0 = ':' then
              match parseVal fuel rest2 with
              | some (v, rest3) =>
                match rest3 with
                | c1 :: rest4 =>
                  if c1 = ',' then
                    match parseFields fuel rest4 with
                    | some (fs, rest5) =>
                      some ((String.mk kchars, v) :: fs, rest5)
                    | none => none
                  else if c1 = rbraceC then
                    some ([(String.mk kchars, v)], rest4)
                  else none
                | [] => none
              | none => none
            else none
          | [] => none
        | none => none
      else none
    | [] => none

end

/-- Nothing remains, or the remainder does not begin with a digit (what
follows a rendered value inside JSON output). -/
def noDigitHead : List Char → Prop
  | [] => True
  | c :: _ => c.isDigit = false

/-- The default serialize: JSON.stringify. -/
def serializeJson (v : JsonVal) : String := String.mk (render v)

/-- The default deserialize: JSON.parse — a full-input parse with fuel
ample for the value's nesting. -/
def deserializeJson (s : String) : Option JsonVal :=
  match parseVal (2 * s.length + 1) s.data with
  | some (v, []) => some v
  | _ => none

/-- The persisted envelope obj with the state and version fields, as
persist.ts passes it to serialize. -/
def jsonEnvelope (S : JsonVal) (V : Nat) : JsonVal :=
  .obj [("state", S), ("version", .num (Int.ofNat V))]

/-! ### Digit and hexadecimal facts -/

theorem digitChar_isDigit (n : Nat) (h : n < 10) :
    (digitChar n).isDigit = true := by
  interval_cases n <;> decide

theorem digitChar_toNat (n : Nat) (h : n < 10) :
    (digitChar n).toNat - 48 = n := by
  interval_cases n <;> decide

theorem hexVal_hexDigitChar (n : Nat) (h : n < 16) :
    hexVal (hexDigitChar n) = some n := by
  interval_cases n <;> decide

theorem isDigit_branch {c : Char} (h : c.isDigit = true) :
    c ≠ 'n' ∧ c ≠ 't' ∧ c ≠ 'f' ∧ c ≠ quoteC ∧ c ≠ '-' := by
  refine ⟨?_, ?_, ?_, ?_, ?_⟩ <;>
    (intro he; subst he; exact absurd h (by decide))

theorem isDigit_ne_brack {c : Char} (h : c.isDigit = true) :
    c ≠ ']' ∧ c ≠ rbraceC := by
  constructor <;> (intro he; subst he; exact absurd h (by decide))

theorem natDigits_small {n : Nat} (h : n < 10) :
    natDigits n = [digitChar n] := by
  unfold natDigits
  simp [h]

theorem natDigits_big {n : Nat} (h : ¬ n < 10) :
    natDigits n = natDigits (n / 10) ++ [digitChar (n % 10)] := by
  conv_lhs => rw [natDigits]
  simp [h]

theorem digitsBase_small {n : Nat} (h : n < 10) : digitsBase n = 10 := by
  unfold digitsBase
  simp [h]

theorem digitsBase_big {n : Nat} (h : ¬ n < 10) :
    digitsBase n = digitsBase (n / 10) * 10 := by
  conv_lhs => rw [digitsBase]
  simp [h]

theorem natDigits_head (n : Nat) :
    ∃ d cs, natDigits n = d :: cs ∧ d.isDigit = true := by
  induction n using Nat.strong_induction_on with
  | _ n ih =>
    by_cases h : n < 10
    · exact ⟨digitChar n, [], natDigits_small h, digitChar_isDigit n h⟩
    · obtain ⟨d, cs, hEq, hDig⟩ :=
        ih (n / 10) (Nat.div_lt_self (by omega) (by omega))
      exact ⟨d, cs ++ [digitChar (n % 10)],
        by rw [natDigits_big h, hEq]; rfl, hDig⟩

theorem parseDigits_stop (cs : List Char) (acc : Nat) (h : noDigitHead cs) :
    parseDigits cs acc = (acc, cs) := by
  cases cs with
  | nil => rfl
  | cons c cs2 =>
    have hc : c.isDigit = false := h
    simp [parseDigits, hc]

theorem parseDigits_digit (m : Nat) (hm : m < 10) (cs : List Char)
    (acc : Nat) :
    parseDigits (digitChar m :: cs) acc = parseDigits cs (acc * 10 + m) := by
  simp [parseDigits, digitChar_isDigit m hm, digitChar_toNat m hm]

theorem parseDigits_natDigits (n : Nat) : ∀ (acc : Nat) (rest : List Char),
    parseDigits (natDigits n ++ rest) acc
      = parseDigits rest (acc * digitsBase n + n) := by
  induction n using Nat.strong_induction_on with
  | _ n ih =>
    intro acc rest
    by_cases h : n < 10
    · rw [natDigits_small h, digitsBase_small h]
      exact parseDigits_digit n h rest acc
    · rw [natDigits_big h, List.append_assoc,
          ih (n / 10) (Nat.div_lt_self (by omega) (by omega)) acc _]
      show parseDigits (digitChar (n % 10) :: rest) _ = _
      rw [parseDigits_digit (n % 10) (Nat.mod_lt _ (by omega)) rest _]
      rw [digitsBase_big h, ← Nat.mul_assoc]
      congr 1
      generalize acc * digitsBase (n / 10) = A
      omega

/-! ### String escape roundtrip -/

theorem parseStrChars_quote_step (cs : List Char) :
    parseStrChars (quoteC :: cs) = some ([], cs) := by
  rw [parseStrChars.eq_def]
  simp

theorem parseStrChars_plain_step (c : Char) (cs : List Char)
    (h1 : ¬ c = quoteC) (h2 : ¬ c = bsC) :
    parseStrChars (c :: cs)
      = match parseStrChars cs with
        | some (tail, rest) => some (c :: tail, rest)
        | none => none := by
  rw [parseStrChars.eq_def]
  simp [h1, h2]

theorem parseStrChars_esc_step (e u : Char) (cs : List Char)
    (hne : ¬ e = 'u') (he : escDecode e = some u) :
    parseStrChars (bsC :: e :: cs)
      = match parseStrChars cs with
        | some (tail, rest) => some (u :: tail, rest)
        | none => none := by
  rw [parseStrChars.eq_def]
  simp [show ¬ bsC = quoteC from by decide, hne, he]

theorem parseStrChars_hex_step (a b : Nat) (h3 h4 : Char) (cs : List Char)
    (ha : hexVal h3 = some a) (hb : hexVal h4 = some b) :
    parseStrChars (bsC :: 'u' :: '0' :: '0' :: h3 :: h4 :: cs)
      = match parseStrChars cs with
        | some (tail, rest) => some (Char.ofNat (a * 16 + b) :: tail, rest)
        | none => none := by
  rw [parseStrChars.eq_def]
  simp [show ¬ bsC = quoteC from by decide,
        show hexVal '0' = some 0 from by decide, ha, hb]

theorem parseStrChars_escList : ∀ (s rest : List Char),
    parseStrChars (escList s ++ (quoteC :: rest)) = some (s, rest)
  | [], rest => by
    rw [show escList [] ++ (quoteC :: rest) = quoteC :: rest from rfl]
    exact parseStrChars_quote_step rest
  | c :: cs, rest => by
    have ih := parseStrChars_escList cs rest
    rw [escList, List.append_assoc]
    by_cases h1 : c = quoteC
    · subst h1
      rw [show escapeChar quoteC = [bsC, quoteC] from by decide]
      rw [show ([bsC, quoteC] : List Char) ++ (escList cs ++ (quoteC :: rest))
            = bsC :: quoteC :: (escList cs ++ (quoteC :: rest)) from rfl]
      rw [parseStrChars_esc_step quoteC quoteC _ (by decide) (by decide), ih]
    · by_cases h2 : c = bsC
      · subst h2
        rw [show escapeChar bsC = [bsC, bsC] from by decide]
        rw [show ([bsC, bsC] : List Char) ++ (escList cs ++ (quoteC :: rest))
              = bsC :: bsC :: (escList cs ++ (quoteC :: rest)) from rfl]
        rw [parseStrChars_esc_step bsC bsC _ (by decide) (by decide), ih]
      · by_cases h3 : c.toNat = 8
        · have hc : c = Char.ofNat 8 := by rw [← h3, Char.ofNat_toNat]
          subst hc
          rw [show escapeChar (Char.ofNat 8) = [bsC, 'b'] from by decide]
          rw [show ([bsC, 'b'] : List Char) ++ (escList cs ++ (quoteC :: rest))
                = bsC :: 'b' :: (escList cs ++ (quoteC :: rest)) from rfl]
          rw [parseStrChars_esc_step 'b' (Char.ofNat 8) _ (by decide)
                (by decide), ih]
        · by_cases h4 : c.toNat = 9
          · have hc : c = Char.ofNat 9 := by rw [← h4, Char.ofNat_toNat]
            subst hc
            rw [show escapeChar (Char.ofNat 9) = [bsC, 't'] from by decide]
            rw [show ([bsC, 't'] : List Char)
                  ++ (escList cs ++ (quoteC :: rest))
                  = bsC :: 't' :: (escList cs ++ (quoteC :: rest)) from rfl]
            rw [parseStrChars_esc_step 't' (Char.ofNat 9) _ (by decide)
                  (by decide), ih]
          · by_cases h5 : c.toNat = 10
            · have hc : c = Char.ofNat 10 := by
                rw [← h5, Char.ofNat_toNat]
              subst hc
              rw [show escapeChar (Char.ofNat 10) = [bsC, 'n']
                    from by decide]
              rw [show ([bsC, 'n'] : List Char)
                    ++ (escList cs ++ (quoteC :: rest))
                    = bsC :: 'n' :: (escList cs ++ (quoteC :: rest))
                    from rfl]
              rw [parseStrChars_esc_step 'n' (Char.ofNat 10) _ (by decide)
                    (by decide), ih]
            · by_cases h6 : c.toNat = 12
              · have hc : c = Char.ofNat 12 := by
                  rw [← h6, Char.ofNat_toNat]
                subst hc
                rw [show escapeChar (Char.ofNat 12) = [bsC, 'f']
                      from by decide]
                rw [show ([bsC, 'f'] : List Char)
                      ++ (escList cs ++ (quoteC :: rest))
                      = bsC :: 'f' :: (escList cs ++ (quoteC :: rest))
                      from rfl]
                rw [parseStrChars_esc_step 'f' (Char.ofNat 12) _
                      (by decide) (by decide), ih]
              · by_cases h7 : c.toNat = 13
                · have hc : c = Char.ofNat 13 := by
                    rw [← h7, Char.ofNat_toNat]
                  subst hc
                  rw [show escapeChar (Char.ofNat 13) = [bsC, 'r']
                        from by decide]
                  rw [show ([bsC, 'r'] : List Char)
                        ++ (escList cs ++ (quoteC :: rest))
                        = bsC :: 'r' :: (escList cs ++ (quoteC :: rest))
                        from rfl]
                  rw [parseStrChars_esc_step 'r' (Char.ofNat 13) _
                        (by decide) (by decide), ih]
                · by_cases h8 : c.toNat < 32
                  · rw [escapeChar, if_neg h1, if_neg h2, if_neg h3,
                        if_neg h4, if_neg h5, if_neg h6, if_neg h7,
                        if_pos h8]
                    simp only [List.cons_append, List.nil_append]
                    rw [parseStrChars_hex_step (c.toNat / 16)
                          (c.toNat % 16) _ _ _
                          (hexVal_hexDigitChar (c.toNat / 16) (by omega))
                          (hexVal_hexDigitChar (c.toNat % 16) (by omega)),
                        ih]
                    rw [show c.toNat / 16 * 16 + c.toNat % 16 = c.toNat
                          from by omega,
                        Char.ofNat_toNat]
                  · rw [escapeChar, if_neg h1, if_neg h2, if_neg h3,
                        if_neg h4, if_neg h5, if_neg h6, if_neg h7,
                        if_neg h8]
                    simp only [List.cons_append, List.nil_append]
                    rw [parseStrChars_plain_step c _ h1 h2, ih]

/-! ### Equation and step lemmas for the renderer and parser -/

theorem render_null : render .null = 'n' :: 'u' :: 'l' :: 'l' :: [] := by
  simp [render]

theorem render_true : render (.bool true) = 't' :: 'r' :: 'u' :: 'e' :: [] := by
  simp [render]

theorem render_false :
    render (.bool false) = 'f' :: 'a' :: 'l' :: 's' :: 'e' :: [] := by
  simp [render]

theorem render_num (i : Int) : render (.num i) = renderInt i := by
  simp [render]

theorem render_str (s : String) : render (.str s) = renderStr s := by
  simp [render]

theorem render_arr_nil : render (.arr []) = '[' :: ']' :: [] := by
  simp [render]

theorem render_arr_cons (v : JsonVal) (vs : List JsonVal) :
    render (.arr (v :: vs)) = '[' :: (render v ++ (renderTail vs ++ [']'])) := by
  simp [render]

theorem render_obj_nil : render (.obj []) = lbraceC :: rbraceC :: [] := by
  simp [render]

theorem render_obj_cons (k : String) (v : JsonVal)
    (fs : List (String × JsonVal)) :
    render (.obj ((k, v) :: fs))
      = lbraceC :: (renderStr k ++ ':'
          :: (render v ++ (renderFTail fs ++ [rbraceC]))) := by
  simp [render]

theorem renderTail_nil : renderTail [] = [] := by simp [renderTail]

theorem renderTail_cons (v : JsonVal) (vs : List JsonVal) :
    renderTail (v :: vs) = ',' :: (render v ++ renderTail vs) := by
  simp [renderTail]

theorem renderFTail_nil : renderFTail [] = [] := by simp [renderFTail]

theorem renderFTail_cons (k : String) (v : JsonVal)
    (fs : List (String × JsonVal)) :
    renderFTail ((k, v) :: fs)
      = ',' :: (renderStr k ++ ':' :: (render v ++ renderFTail fs)) := by
  simp [renderFTail]

theorem sizeJ_null : sizeJ .null = 1 := by simp [sizeJ]
theorem sizeJ_bool (b : Bool) : sizeJ (.bool b) = 1 := by simp [sizeJ]
theorem sizeJ_num (i : Int) : sizeJ (.num i) = 1 := by simp [sizeJ]
theorem sizeJ_str (s : String) : sizeJ (.str s) = 1 := by simp [sizeJ]
theorem sizeJ_arr (xs : List JsonVal) : sizeJ (.arr xs) = 2 + sizeL xs := by
  simp [sizeJ]
theorem sizeJ_obj (fs : List (String × JsonVal)) :
    sizeJ (.obj fs) = 2 + sizeF fs := by
  simp [sizeJ]
theorem sizeL_nil : sizeL [] = 0 := by simp [sizeL]
theorem sizeL_cons (v : JsonVal) (vs : List JsonVal) :
    sizeL (v :: vs) = 1 + sizeJ v + sizeL vs := by
  simp [sizeL]
theorem sizeF_nil : sizeF [] = 0 := by simp [sizeF]
theorem sizeF_cons (k : String) (v : JsonVal)
    (fs : List (String × JsonVal)) :
    sizeF ((k, v) :: fs) = 1 + sizeJ v + sizeF fs := by
  simp [sizeF]

theorem sizeJ_pos (v : JsonVal) : 1 ≤ sizeJ v := by
  cases v <;> simp [sizeJ] <;> omega

theorem parseVal_step (fuel : Nat) (c : Char) (cs : List Char) :
    parseVal (fuel + 1) (c :: cs)
      = (if c = 'n' then parseNull cs
         else if c = 't' then parseTrue cs
         else if c = 'f' then parseFalse cs
         else if c = quoteC then
           match parseStrChars cs with
           | some (chars, rest) => some (.str (String.mk chars), rest)
           | none => none
         else if c = '-' then
           match cs with
           | d :: _ =>
             if d.isDigit then
               match parseDigits cs 0 with
               | (n, rest) => some (.num (-(n : Int)), rest)
             else none
           | [] => none
         else if c.isDigit then
           match parseDigits (c :: cs) 0 with
           | (n, rest) => some (.num (n : Int), rest)
         else if c = '[' then
           match cs with
           | d :: rest2 =>
             if d = ']' then some (.arr [], rest2)
             else
               match parseList fuel cs with
               | some (vs, rest) => some (.arr vs, rest)
               | none => none
           | [] => none
         else if c = lbraceC then
           match cs with
           | d :: rest2 =>
             if d = rbraceC then some (.obj [], rest2)
             else
               match parseFields fuel cs with
               | some (fs, rest) => some (.obj fs, rest)
               | none => none
           | [] => none
         else none) := rfl

theorem parseList_step (fuel : Nat) (cs : List Char) :
    parseList (fuel + 1) cs
      = (match parseVal fuel cs with
         | some (v, rest) =>
           match rest with
           | c :: rest2 =>
             if c = ',' then
               match parseList fuel rest2 with
               | some (vs, rest3) => some (v :: vs, rest3)
               | none => none
             else if c = ']' then some ([v], rest2)
             else none
           | [] => none
         | none => none) := rfl

theorem parseFields_step (fuel : Nat) (cs : List Char) :
    parseFields (fuel + 1) cs
      = (match cs with
         | q :: cs2 =>
           if q = quoteC then
             match parseStrChars cs2 with
             | some (kchars, rest) =>
               match rest with
               | c0 :: rest2 =>
                 if c0 = ':' then
                   match parseVal fuel rest2 with
                   | some (v, rest3) =>
                     match rest3 with
                     | c1 :: rest4 =>
                       if c1 = ',' then
                         match parseFields fuel rest4 with
                         | some (fs, rest5) =>
                           some ((String.mk kchars, v) :: fs, rest5)
                         | none => none
                       else if c1 = rbraceC then
                         some ([(String.mk kchars, v)], rest4)
                       else none
                     | [] => none
                   | none => none
                 else none
               | [] => none
             | none => none
           else none
         | [] => none) := rfl

theorem parseVal_null (fuel : Nat) (rest : List Char) :
    parseVal (fuel + 1) ('n' :: 'u' :: 'l' :: 'l' :: rest)
      = some (.null, rest) := by
  rw [parseVal_step]
  simp [parseNull]

theorem parseVal_true (fuel : Nat) (rest : List Char) :
    parseVal (fuel + 1) ('t' :: 'r' :: 'u' :: 'e' :: rest)
      = some (.bool true, rest) := by
  rw [parseVal_step]
  simp [parseTrue, show ¬ ('t' : Char) = 'n' from by decide]

theorem parseVal_false (fuel : Nat) (rest : List Char) :
    parseVal (fuel + 1) ('f' :: 'a' :: 'l' :: 's' :: 'e' :: rest)
      = some (.bool false, rest) := by
  rw [parseVal_step]
  simp [parseFalse, show ¬ ('f' : Char) = 'n' from by decide,
        show ¬ ('f' : Char) = 't' from by decide]

theorem parseVal_str (fuel : Nat) (cs : List Char) :
    parseVal (fuel + 1) (quoteC :: cs)
      = match parseStrChars cs with
        | some (chars, rest) => some (.str (String.mk chars), rest)
        | none => none := by
  rw [parseVal_step]
  simp [show ¬ quoteC = 'n' from by decide, show ¬ quoteC = 't' from by decide,
        show ¬ quoteC = 'f' from by decide]

theorem parseVal_digit (fuel : Nat) (c : Char) (cs : List Char)
    (hd : c.isDigit = true) :
    parseVal (fuel + 1) (c :: cs)
      = match parseDigits (c :: cs) 0 with
        | (n, rest) => some (.num (n : Int), rest) := by
  have hbr := isDigit_branch hd
  rw [parseVal_step]
  simp [hbr.1, hbr.2.1, hbr.2.2.1, hbr.2.2.2.1, hbr.2.2.2.2, hd]

theorem parseVal_neg (fuel : Nat) (d : Char) (cs : List Char)
    (hd : d.isDigit = true) :
    parseVal (fuel + 1) ('-' :: d :: cs)
      = match parseDigits (d :: cs) 0 with
        | (n, rest) => some (.num (-(n : Int)), rest) := by
  rw [parseVal_step]
  simp [show ¬ ('-' : Char) = 'n' from by decide,
        show ¬ ('-' : Char) = 't' from by decide,
        show ¬ ('-' : Char) = 'f' from by decide,
        show ¬ ('-' : Char) = quoteC from by decide, hd]

theorem parseVal_arr_nil (fuel : Nat) (rest : List Char) :
    parseVal (fuel + 1) ('[' :: ']' :: rest) = some (.arr [], rest) := by
  rw [parseVal_step]
  simp [show ¬ ('[' : Char) = 'n' from by decide,
        show ¬ ('[' : Char) = 't' from by decide,
        show ¬ ('[' : Char) = 'f' from by decide,
        show ¬ ('[' : Char) = quoteC from by decide,
        show ¬ ('[' : Char) = '-' from by decide,
        show ('[' : Char).isDigit = false from by decide]

theorem parseVal_arr (fuel : Nat) (d : Char) (rest2 : List Char)
    (hd : ¬ d = ']') :
    parseVal (fuel + 1) ('[' :: d :: rest2)
      = match parseList fuel (d :: rest2) with
        | some (vs, rest) => some (.arr vs, rest)
        | none => none := by
  rw [parseVal_step]
  simp [show ¬ ('[' : Char) = 'n' from by decide,
        show ¬ ('[' : Char) = 't' from by decide,
        show ¬ ('[' : Char) = 'f' from by decide,
        show ¬ ('[' : Char) = quoteC from by decide,
        show ¬ ('[' : Char) = '-' from by decide,
        show ('[' : Char).isDigit = false from by decide, hd]

theorem parseVal_obj_nil (fuel : Nat) (rest : List Char) :
    parseVal (fuel + 1) (lbraceC :: rbraceC :: rest)
      = some (.obj [], rest) := by
  rw [parseVal_step]
  simp [show ¬ lbraceC = 'n' from by decide,
        show ¬ lbraceC = 't' from by decide,
        show ¬ lbraceC = 'f' from by decide,
        show ¬ lbraceC = quoteC from by decide,
        show ¬ lbraceC = '-' from by decide,
        show lbraceC.isDigit = false from by decide,
        show ¬ lbraceC = '[' from by decide]

theorem parseVal_obj (fuel : Nat) (d : Char) (rest2 : List Char)
    (hd : ¬ d = rbraceC) :
    parseVal (fuel + 1) (lbraceC :: d :: rest2)
      = match parseFields fuel (d :: rest2) with
        | some (fs, rest) => some (.obj fs, rest)
        | none => none := by
  rw [parseVal_step]
  simp [show ¬ lbraceC = 'n' from by decide,
        show ¬ lbraceC = 't' from by decide,
        show ¬ lbraceC = 'f' from by decide,
        show ¬ lbraceC = quoteC from by decide,
        show ¬ lbraceC = '-' from by decide,
        show lbraceC.isDigit = false from by decide,
        show ¬ lbraceC = '[' from by decide, hd]

theorem render_head (v : JsonVal) :
    ∃ c cs, render v = c :: cs ∧ ¬ c = ']' ∧ ¬ c = rbraceC := by
  cases v with
  | null => exact ⟨'n', _, render_null, by decide, by decide⟩
  | bool b =>
    cases b
    · exact ⟨'f', _, render_false, by decide, by decide⟩
    · exact ⟨'t', _, render_true, by decide, by decide⟩
  | num i =>
    cases i with
    | ofNat n =>
      obtain ⟨d, ds, hEq, hDig⟩ := natDigits_head n
      have hb := isDigit_ne_brack hDig
      exact ⟨d, ds, by rw [render_num]; exact hEq, hb.1, hb.2⟩
    | negSucc n =>
      exact ⟨'-', _, by rw [render_num]; rfl, by decide, by decide⟩
  | str s => exact ⟨quoteC, _, render_str s, by decide, by decide⟩
  | arr xs =>
    cases xs with
    | nil => exact ⟨'[', _, render_arr_nil, by decide, by decide⟩
    | cons v vs => exact ⟨'[', _, render_arr_cons v vs, by decide, by decide⟩
  | obj fs =>
    rcases fs with _ | ⟨⟨k, v⟩, fs⟩
    · exact ⟨lbraceC, _, render_obj_nil, by decide, by decide⟩
    · exact ⟨lbraceC, _, render_obj_cons k v fs, by decide, by decide⟩

/-! ### The parse-render roundtrip -/

theorem roundA (fuel : Nat)
    (ihb : ∀ (v : JsonVal) (vs : List JsonVal) (rest : List Char),
        sizeL (v :: vs) ≤ fuel → noDigitHead rest →
        parseList fuel (render v ++ (renderTail vs ++ (']' :: rest)))
          = some (v :: vs, rest))
    (ihc : ∀ (k : String) (v : JsonVal) (fs : List (String × JsonVal))
        (rest : List Char),
        sizeF ((k, v) :: fs) ≤ fuel → noDigitHead rest →
        parseFields fuel
            (renderStr k
              ++ (':' :: (render v ++ (renderFTail fs ++ (rbraceC :: rest)))))
          = some ((k, v) :: fs, rest)) :
    ∀ (v : JsonVal) (rest : List Char), sizeJ v ≤ fuel + 1 →
      noDigitHead rest →
      parseVal (fuel + 1) (render v ++ rest) = some (v, rest) := by
  intro v rest hsz hnd
  cases v with
  | null =>
    rw [render_null]
    exact parseVal_null fuel rest
  | bool b =>
    cases b
    · rw [render_false]
      exact parseVal_false fuel rest
    · rw [render_true]
      exact parseVal_true fuel rest
  | num i =>
    cases i with
    | ofNat n =>
      obtain ⟨d, ds, hEq, hDig⟩ := natDigits_head n
      rw [render_num, show renderInt (Int.ofNat n) = natDigits n from rfl,
          hEq, show (d :: ds) ++ rest = d :: (ds ++ rest) from rfl,
          parseVal_digit fuel d (ds ++ rest) hDig,
          show d :: (ds ++ rest) = (d :: ds) ++ rest from rfl, ← hEq,
          parseDigits_natDigits n 0 rest, parseDigits_stop rest _ hnd,
          show 0 * digitsBase n + n = n from by omega]
      rfl
    | negSucc n =>
      obtain ⟨d, ds, hEq, hDig⟩ := natDigits_head (n + 1)
      rw [render_num,
          show renderInt (Int.negSucc n) = '-' :: natDigits (n + 1)
            from rfl,
          hEq,
          show ('-' :: d :: ds) ++ rest = '-' :: d :: (ds ++ rest) from rfl,
          parseVal_neg fuel d (ds ++ rest) hDig,
          show d :: (ds ++ rest) = (d :: ds) ++ rest from rfl, ← hEq,
          parseDigits_natDigits (n + 1) 0 rest,
          parseDigits_stop rest _ hnd,
          show 0 * digitsBase (n + 1) + (n + 1) = n + 1 from by omega]
      simp [Int.negSucc_eq]
  | str s =>
    rw [render_str,
        show renderStr s ++ rest
          = quoteC :: (escList s.data ++ (quoteC :: rest)) from by
          simp [renderStr],
        parseVal_str fuel _, parseStrChars_escList s.data rest]
  | arr xs =>
    cases xs with
    | nil =>
      rw [render_arr_nil]
      exact parseVal_arr_nil fuel rest
    | cons v vs =>
      obtain ⟨c, cs2, hEq, hne1, hne2⟩ := render_head v
      rw [render_arr_cons,
          show ('[' :: (render v ++ (renderTail vs ++ [']']))) ++ rest
            = '[' :: (render v ++ (renderTail vs ++ (']' :: rest)))
            from by simp,
          hEq,
          show (c :: cs2) ++ (renderTail vs ++ (']' :: rest))
            = c :: (cs2 ++ (renderTail vs ++ (']' :: rest))) from rfl,
          parseVal_arr fuel c _ hne1,
          show c :: (cs2 ++ (renderTail vs ++ (']' :: rest)))
            = (c :: cs2) ++ (renderTail vs ++ (']' :: rest)) from rfl,
          ← hEq,
          ihb v vs rest (by rw [sizeJ_arr] at hsz; omega) hnd]
  | obj fs =>
    rcases fs with _ | ⟨⟨k, v⟩, fs⟩
    · rw [render_obj_nil]
      exact parseVal_obj_nil fuel rest
    · rw [render_obj_cons,
          show (lbraceC :: (renderStr k ++ ':'
              :: (render v ++ (renderFTail fs ++ [rbraceC])))) ++ rest
            = lbraceC :: (renderStr k ++ (':'
              :: (render v ++ (renderFTail fs ++ (rbraceC :: rest)))))
            from by simp,
          show renderStr k ++ (':'
              :: (render v ++ (renderFTail fs ++ (rbraceC :: rest))))
            = quoteC :: (escList k.data ++ (quoteC :: (':'
              :: (render v ++ (renderFTail fs ++ (rbraceC :: rest))))))
            from by simp [renderStr],
          parseVal_obj fuel quoteC _ (by decide),
          show quoteC :: (escList k.data ++ (quoteC :: (':'
              :: (render v ++ (renderFTail fs ++ (rbraceC :: rest))))))
            = renderStr k ++ (':'
              :: (render v ++ (renderFTail fs ++ (rbraceC :: rest))))
            from by simp [renderStr],
          ihc k v fs rest (by rw [sizeJ_obj] at hsz; omega) hnd]

theorem roundB (fuel : Nat)
    (iha : ∀ (v : JsonVal) (rest : List Char), sizeJ v ≤ fuel →
        noDigitHead rest → parseVal fuel (render v ++ rest) = some (v, rest))
    (ihb : ∀ (v : JsonVal) (vs : List JsonVal) (rest : List Char),
        sizeL (v :: vs) ≤ fuel → noDigitHead rest →
        parseList fuel (render v ++ (renderTail vs ++ (']' :: rest)))
          = some (v :: vs, rest)) :
    ∀ (v : JsonVal) (vs : List JsonVal) (rest : List Char),
        sizeL (v :: vs) ≤ fuel + 1 → noDigitHead rest →
        parseList (fuel + 1) (render v ++ (renderTail vs ++ (']' :: rest)))
          = some (v :: vs, rest) := by
  intro v vs rest hsz hnd
  have hndR : noDigitHead (renderTail vs ++ (']' :: rest)) := by
    cases vs with
    | nil =>
      rw [renderTail_nil]
      exact (by decide : (']' : Char).isDigit = false)
    | cons w ws =>
      rw [renderTail_cons]
      exact (by decide : (',' : Char).isDigit = false)
  rw [parseList_step,
      iha v _ (by rw [sizeL_cons] at hsz; omega) hndR]
  cases vs with
  | nil =>
    rw [renderTail_nil]
    simp [show ¬ (']' : Char) = ',' from by decide]
  | cons w ws =>
    rw [renderTail_cons,
        show ((',' :: (render w ++ renderTail ws)) ++ (']' :: rest))
          = ',' :: (render w ++ (renderTail ws ++ (']' :: rest)))
          from by simp]
    simp [ihb w ws rest
            (by rw [sizeL_cons] at hsz; have := sizeJ_pos v; omega) hnd]

theorem roundC (fuel : Nat)
    (iha : ∀ (v : JsonVal) (rest : List Char), sizeJ v ≤ fuel →
        noDigitHead rest → parseVal fuel (render v ++ rest) = some (v, rest))
    (ihc : ∀ (k : String) (v : JsonVal) (fs : List (String × JsonVal))
        (rest : List Char),
        sizeF ((k, v) :: fs) ≤ fuel → noDigitHead rest →
        parseFields fuel
            (renderStr k
              ++ (':' :: (render v ++ (renderFTail fs ++ (rbraceC :: rest)))))
          = some ((k, v) :: fs, rest)) :
    ∀ (k : String) (v : JsonVal) (fs : List (String × JsonVal))
        (rest : List Char),
        sizeF ((k, v) :: fs) ≤ fuel + 1 → noDigitHead rest →
        parseFields (fuel + 1)
            (renderStr k
              ++ (':' :: (render v ++ (renderFTail fs ++ (rbraceC :: rest)))))
          = some ((k, v) :: fs, rest) := by
  intro k v fs rest hsz hnd
  have hndV : noDigitHead (renderFTail fs ++ (rbraceC :: rest)) := by
    rcases fs with _ | ⟨⟨k2, v2⟩, fs2⟩
    · rw [renderFTail_nil]
      exact (by decide : rbraceC.isDigit = false)
    · rw [renderFTail_cons]
      exact (by decide : (',' : Char).isDigit = false)
  rw [parseFields_step,
      show renderStr k
          ++ (':' :: (render v ++ (renderFTail fs ++ (rbraceC :: rest))))
        = quoteC :: (escList k.data ++ (quoteC :: (':'
          :: (render v ++ (renderFTail fs ++ (rbraceC :: rest))))))
        from by simp [renderStr]]
  simp only [parseStrChars_escList k.data
      (':' :: (render v ++ (renderFTail fs ++ (rbraceC :: rest))))]
  simp only [iha v _ (by rw [sizeF_cons] at hsz; omega) hndV]
  rcases fs with _ | ⟨⟨k2, v2⟩, fs2⟩
  · rw [renderFTail_nil]
    simp [show ¬ rbraceC = ',' from by decide]
  · rw [renderFTail_cons,
        show ((',' :: (renderStr k2 ++ ':' :: (render v2 ++ renderFTail fs2)))
              ++ (rbraceC :: rest))
          = ',' :: (renderStr k2 ++ (':'
              :: (render v2 ++ (renderFTail fs2 ++ (rbraceC :: rest)))))
          from by simp]
    simp [ihc k2 v2 fs2 rest
            (by rw [sizeF_cons] at hsz; have := sizeJ_pos v; omega) hnd]

/-- parse inverts render: with fuel at least the value's size, parsing the
rendered text (followed by any non-digit-leading remainder) returns the
value and the remainder. -/
theorem parse_render (fuel : Nat) :
    (∀ (v : JsonVal) (rest : List Char), sizeJ v ≤ fuel → noDigitHead rest →
        parseVal fuel (render v ++ rest) = some (v, rest)) ∧
    (∀ (v : JsonVal) (vs : List JsonVal) (rest : List Char),
        sizeL (v :: vs) ≤ fuel → noDigitHead rest →
        parseList fuel (render v ++ (renderTail vs ++ (']' :: rest)))
          = some (v :: vs, rest)) ∧
    (∀ (k : String) (v : JsonVal) (fs : List (String × JsonVal))
        (rest : List Char),
        sizeF ((k, v) :: fs) ≤ fuel → noDigitHead rest →
        parseFields fuel
            (renderStr k
              ++ (':' :: (render v ++ (renderFTail fs ++ (rbraceC :: rest)))))
          = some ((k, v) :: fs, rest)) := by
  induction fuel with
  | zero =>
    refine ⟨?_, ?_, ?_⟩
    · intro v rest hsz _
      exact absurd hsz (by have := sizeJ_pos v; omega)
    · intro v vs rest hsz _
      rw [sizeL_cons] at hsz
      exact absurd hsz (by have := sizeJ_pos v; omega)
    · intro k v fs rest hsz _
      rw [sizeF_cons] at hsz
      exact absurd hsz (by have := sizeJ_pos v; omega)
  | succ fuel ih =>
    exact ⟨roundA fuel ih.2.1 ih.2.2, roundB fuel ih.1 ih.2.1,
           roundC fuel ih.1 ih.2.2⟩

theorem renderStr_len (s : String) :
    (renderStr s).length = (escList s.data).length + 2 := by
  simp [renderStr]

theorem renderInt_len_pos (i : Int) : 1 ≤ (renderInt i).length := by
  cases i with
  | ofNat n =>
    obtain ⟨d, ds, hEq, _⟩ := natDigits_head n
    show 1 ≤ (natDigits n).length
    rw [hEq]
    simp
  | negSucc n =>
    show 1 ≤ ('-' :: natDigits (n + 1)).length
    simp

/-- The structural size of a value is at most twice its rendered length
(so fuel 2·length + 1 always suffices for the parser). -/
theorem size_le_render (n : Nat) :
    (∀ v : JsonVal, sizeJ v ≤ n → sizeJ v ≤ 2 * (render v).length) ∧
    (∀ vs : List JsonVal, sizeL vs ≤ n →
        sizeL vs ≤ 2 * (renderTail vs).length) ∧
    (∀ fs : List (String × JsonVal), sizeF fs ≤ n →
        sizeF fs ≤ 2 * (renderFTail fs).length) := by
  induction n with
  | zero =>
    refine ⟨?_, ?_, ?_⟩
    · intro v hsz
      exact absurd hsz (by have := sizeJ_pos v; omega)
    · intro vs hsz
      cases vs with
      | nil => simp [sizeL_nil]
      | cons v vs =>
        rw [sizeL_cons] at hsz
        exact absurd hsz (by have := sizeJ_pos v; omega)
    · intro fs hsz
      rcases fs with _ | ⟨⟨k, v⟩, fs⟩
      · simp [sizeF_nil]
      · rw [sizeF_cons] at hsz
        exact absurd hsz (by have := sizeJ_pos v; omega)
  | succ n ih =>
    refine ⟨?_, ?_, ?_⟩
    · intro v hsz
      cases v with
      | null => rw [sizeJ_null, render_null]; simp
      | bool b => rw [sizeJ_bool]; cases b <;> simp [render_true, render_false]
      | num i =>
        rw [sizeJ_num, render_num]
        have := renderInt_len_pos i
        omega
      | str s =>
        rw [sizeJ_str, render_str]
        have := renderStr_len s
        omega
      | arr xs =>
        cases xs with
        | nil => rw [sizeJ_arr, sizeL_nil, render_arr_nil]; simp
        | cons v vs =>
          rw [sizeJ_arr, sizeL_cons] at hsz ⊢
          have h1 := ih.1 v (by have := sizeJ_pos v; omega)
          have h2 := ih.2.1 vs (by have := sizeJ_pos v; omega)
          rw [render_arr_cons]
          simp only [List.length_cons, List.length_append]
          omega
      | obj fs =>
        rcases fs with _ | ⟨⟨k, v⟩, fs⟩
        · rw [sizeJ_obj, sizeF_nil, render_obj_nil]; simp
        · rw [sizeJ_obj, sizeF_cons] at hsz ⊢
          have h1 := ih.1 v (by have := sizeJ_pos v; omega)
          have h2 := ih.2.2 fs (by have := sizeJ_pos v; omega)
          have h3 := renderStr_len k
          rw [render_obj_cons]
          simp only [List.length_cons, List.length_append]
          omega
    · intro vs hsz
      cases vs with
      | nil => simp [sizeL_nil]
      | cons v vs =>
        rw [sizeL_cons] at hsz ⊢
        have h1 := ih.1 v (by have := sizeJ_pos v; omega)
        have h2 := ih.2.1 vs (by have := sizeJ_pos v; omega)
        rw [renderTail_cons]
        simp only [List.length_cons, List.length_append]
        omega
    · intro fs hsz
      rcases fs with _ | ⟨⟨k, v⟩, fs⟩
      · simp [sizeF_nil]
      · rw [sizeF_cons] at hsz ⊢
        have h1 := ih.1 v (by have := sizeJ_pos v; omega)
        have h2 := ih.2.2 fs (by have := sizeJ_pos v; omega)
        have h3 := renderStr_len k
        rw [renderFTail_cons]
        simp only [List.length_cons, List.length_append]
        omega

/-- JSON.parse inverts JSON.stringify on every modelled JavaScript value. -/
theorem deserialize_serialize (v : JsonVal) :
    deserializeJson (serializeJson v) = some v := by
  have hsz : sizeJ v ≤ 2 * (render v).length + 1 := by
    have h := (size_le_render (sizeJ v)).1 v le_rfl
    omega
  have hp := (parse_render (2 * (render v).length + 1)).1 v [] hsz trivial
  rw [show render v ++ ([] : List Char) = render v from by simp] at hp
  unfold deserializeJson serializeJson
  rw [show (String.mk (render v)).length = (render v).length from rfl,
      show (String.mk (render v)).data = render v from rfl, hp]

/-- C9: for every state S and every version V, with the default codec
(serialize = JSON.stringify, deserialize = JSON.parse), deserializing the
serialized envelope obj with fields state S and version V yields a value
deep-equal (structurally equal) to that envelope. -/
theorem default_codec_roundtrip (S : JsonVal) (V : Nat) :
    deserializeJson (serializeJson (jsonEnvelope S V))
      = some (jsonEnvelope S V) :=
  deserialize_serialize (jsonEnvelope S V)

end Beru
